import Mathlib

/-!
A shallow embedding, in Lean 4, of the input-to-audio core of the para-speak
repository: the shortcut-pattern primitives, the conflict resolver, the
shortcut matcher and its engine state machine
(crates/core/shortcut-matcher/src), the pattern DSL parser, the dynamic
capture buffer and the audio-recorder worker (crates/core/audio/src).

Modelling conventions:
* Rust `Instant` values are milliseconds as `Nat`; `Instant::duration_since`
  is truncated (saturating) `Nat` subtraction, matching the saturating
  behaviour of the Rust standard library.
* Rust `u64`/`usize` arithmetic in this code never approaches overflow
  (times in milliseconds, buffer sizes in bytes), so both are modelled as
  `Nat`.
* `HashSet`s of pattern indices are modelled as duplicate-free `List Nat`
  kept in the deterministic order described at each use site (Rust `HashSet`
  iteration order is unspecified; the modelled order is only observable
  through tie-breaks that the verified statements do not depend on).
* The global `DELAYED_ACTION_COUNTER` atomic is a counter field threaded
  through the matcher state.
* Bytes are `Nat` (their numeric value is never inspected by this code).
* Audio `Stream` handles are opaque: `Option Unit`.  Construction of a
  stream by the OS may succeed or fail; that outcome is an explicit input
  (`Except AudioError Unit`) to the functions that build streams.
-/

set_option maxHeartbeats 1000000

namespace ParaSpeak

/-! ## Basic types (shortcut-matcher/src/types.rs and rdev keys) -/

/-- The subset of `rdev::Key` recognised by the pattern DSL
(`parser.rs::parse_key_name`). -/
inductive Key where
  | MetaLeft | MetaRight | ControlLeft | ControlRight | ShiftLeft | ShiftRight
  | Alt | AltGr
  | KeyA | KeyB | KeyC | KeyD | KeyE | KeyF | KeyG | KeyH | KeyI | KeyJ
  | KeyK | KeyL | KeyM | KeyN | KeyO | KeyP | KeyQ | KeyR | KeyS | KeyT
  | KeyU | KeyV | KeyW | KeyX | KeyY | KeyZ
  | Escape | Space | Return | Tab | Backspace | Delete
  | F1 | F2 | F3 | F4 | F5 | F6 | F7 | F8 | F9 | F10 | F11 | F12
  deriving DecidableEq, Repr

inductive ShortcutAction where
  | start | stop | cancel | pause
  deriving DecidableEq, Repr

inductive ShortcutEngineState where
  | idle | active | paused
  deriving DecidableEq, Repr

inductive KeyEvent where
  | press (key : Key)
  | release (key : Key)
  deriving DecidableEq, Repr

/-- `MatchResult` from types.rs.  The Rust variant `Partial` is named
`partialMatch` here. -/
inductive MatchResult where
  | noMatch
  | partialMatch (next_expected : List Key)
  | complete (action : ShortcutAction)
  | delayed (action : ShortcutAction) (wait_ms : Nat)
  deriving DecidableEq, Repr

inductive PatternType where
  | single | combo | doubleTap
  deriving DecidableEq, Repr

inductive ConflictStrategy where
  | immediate
  | fireOnRelease
  | delayedFire (delay_ms : Nat)
  deriving DecidableEq, Repr

/-- `DelayedAction` from types.rs; the id is the `u64` inside
`DelayedActionId`. -/
structure DelayedAction where
  id : Nat
  action : ShortcutAction
  trigger_at : Nat
  deriving DecidableEq, Repr

/-! ## Pattern primitives (shortcut-matcher/src/patterns) -/

/-- `SingleKeyPattern` (patterns/single.rs). -/
structure SingleKeyPattern where
  key : Key
  action : ShortcutAction
  conflict_strategy : ConflictStrategy
  press_time : Option Nat
  deriving DecidableEq, Repr

/-- `ComboPattern` (patterns/combo.rs).  `held_keys` models the Rust
`HashSet<Key>` as a duplicate-free list. -/
structure ComboPattern where
  sequence : List Key
  current_index : Nat
  held_keys : List Key
  action : ShortcutAction
  deriving DecidableEq, Repr

/-- `DoubleTapPattern` (patterns/double.rs). -/
structure DoubleTapPattern where
  target_key : Key
  timeout_ms : Nat
  action : ShortcutAction
  first_press : Option Nat
  deriving DecidableEq, Repr

/-- The closed union of the three `Box<dyn Pattern>` variants. -/
inductive Pattern where
  | single (p : SingleKeyPattern)
  | combo (p : ComboPattern)
  | double (p : DoubleTapPattern)
  deriving DecidableEq, Repr

instance : Inhabited Pattern :=
  ⟨.single ⟨.ControlLeft, .start, .immediate, none⟩⟩

/-- `SingleKeyPattern::new` (patterns/single.rs). -/
def SingleKeyPattern.new (key : Key) (action : ShortcutAction) : SingleKeyPattern :=
  ⟨key, action, .immediate, none⟩

/-- `SingleKeyPattern::process_key_press` (patterns/single.rs). -/
def SingleKeyPattern.processKeyPress (p : SingleKeyPattern) (key : Key) (now : Nat) :
    MatchResult × SingleKeyPattern :=
  if key = p.key then
    let p := { p with press_time := some now }
    match p.conflict_strategy with
    | .immediate => (.complete p.action, p)
    | .fireOnRelease => (.partialMatch [], p)
    | .delayedFire delay_ms => (.delayed p.action delay_ms, p)
  else
    -- different key pressed: stay active while waiting for release
    if p.press_time.isSome ∧ p.conflict_strategy = .fireOnRelease then
      (.partialMatch [], p)
    else
      (.noMatch, p)

/-- `SingleKeyPattern::process_key_release` (patterns/single.rs). -/
def SingleKeyPattern.processKeyRelease (p : SingleKeyPattern) (key : Key) (now : Nat) :
    MatchResult × SingleKeyPattern :=
  if key ≠ p.key then
    (.noMatch, p)
  else
    let result :=
      match p.conflict_strategy, p.press_time with
      | .fireOnRelease, some press_time =>
        if now - press_time < 100 then MatchResult.complete p.action
        else MatchResult.noMatch
      | .fireOnRelease, none => MatchResult.noMatch
      | _, _ => MatchResult.noMatch
    (result, { p with press_time := none })

/-- `ComboPattern::process_key_press` (patterns/combo.rs). -/
def ComboPattern.processKeyPress (p : ComboPattern) (key : Key) (_now : Nat) :
    MatchResult × ComboPattern :=
  if p.current_index < p.sequence.length ∧ some key = p.sequence.get? p.current_index then
    let p := { p with
      held_keys := if p.held_keys.contains key then p.held_keys else key :: p.held_keys,
      current_index := p.current_index + 1 }
    if p.current_index = p.sequence.length then
      (.complete p.action, p)
    else
      (.partialMatch (p.sequence.drop p.current_index |>.take 1), p)
  else if p.held_keys.contains key then
    if p.current_index < p.sequence.length then
      (.partialMatch (p.sequence.drop p.current_index |>.take 1), p)
    else
      (.noMatch, p)
  else
    (.noMatch, { p with current_index := 0, held_keys := [] })

/-- `ComboPattern::process_key_release` (patterns/combo.rs). -/
def ComboPattern.processKeyRelease (p : ComboPattern) (key : Key) (_now : Nat) :
    MatchResult × ComboPattern :=
  if p.held_keys.contains key then
    let p := { p with held_keys := p.held_keys.filter (· ≠ key) }
    match p.sequence.indexOf? key with
    | some released_index =>
      if released_index < p.current_index then
        (.noMatch, { p with current_index := 0, held_keys := [] })
      else
        (.noMatch, p)
    | none => (.noMatch, p)
  else
    (.noMatch, p)

/-- `DoubleTapPattern::process_key_press` (patterns/double.rs). -/
def DoubleTapPattern.processKeyPress (p : DoubleTapPattern) (key : Key) (now : Nat) :
    MatchResult × DoubleTapPattern :=
  if key ≠ p.target_key then
    (.noMatch, p)
  else
    match p.first_press with
    | none =>
      (.partialMatch [p.target_key], { p with first_press := some now })
    | some first =>
      if now - first ≤ p.timeout_ms then
        (.complete p.action, { p with first_press := none })
      else
        (.partialMatch [p.target_key], { p with first_press := some now })

/-- `DoubleTapPattern::is_expired` (patterns/double.rs). -/
def DoubleTapPattern.isExpired (p : DoubleTapPattern) (now : Nat) : Bool :=
  match p.first_press with
  | some t => now - t > p.timeout_ms
  | none => false

/-! Dispatch over the closed union, one function per method of the
`Pattern` trait (patterns/mod.rs). -/

def Pattern.processKeyPress (p : Pattern) (key : Key) (now : Nat) :
    MatchResult × Pattern :=
  match p with
  | .single s => let (r, s) := s.processKeyPress key now; (r, .single s)
  | .combo c => let (r, c) := c.processKeyPress key now; (r, .combo c)
  | .double d => let (r, d) := d.processKeyPress key now; (r, .double d)

def Pattern.processKeyRelease (p : Pattern) (key : Key) (now : Nat) :
    MatchResult × Pattern :=
  match p with
  | .single s => let (r, s) := s.processKeyRelease key now; (r, .single s)
  | .combo c => let (r, c) := c.processKeyRelease key now; (r, .combo c)
  | .double _ => (.noMatch, p)

def Pattern.reset (p : Pattern) : Pattern :=
  match p with
  | .single s => .single { s with press_time := none }
  | .combo c => .combo { c with current_index := 0, held_keys := [] }
  | .double d => .double { d with first_press := none }

def Pattern.isExpired (p : Pattern) (now : Nat) : Bool :=
  match p with
  | .single _ => false
  | .combo _ => false
  | .double d => d.isExpired now

def Pattern.getTriggerKey (p : Pattern) : Key :=
  match p with
  | .single s => s.key
  | .combo c => c.sequence.headD .ControlLeft  -- combo sequences are nonempty
  | .double d => d.target_key

def Pattern.getType (p : Pattern) : PatternType :=
  match p with
  | .single _ => .single
  | .combo _ => .combo
  | .double _ => .doubleTap

def Pattern.getTimeout (p : Pattern) : Option Nat :=
  match p with
  | .single _ => none
  | .combo _ => none
  | .double d => some d.timeout_ms

def Pattern.getActivationKeys (p : Pattern) : List Key :=
  match p with
  | .single s => [s.key]
  | .combo c => c.sequence.take 1
  | .double d => [d.target_key]

def Pattern.hasPartialMatch (p : Pattern) : Bool :=
  match p with
  | .single s => s.press_time.isSome
  | .combo c => c.current_index > 0
  | .double d => d.first_press.isSome

/-! ## Shortcut matcher (shortcut-matcher/src/matcher.rs) -/

/-- `ShortcutMatcher`.  `next_delayed_id` models the global
`DELAYED_ACTION_COUNTER` atomic. -/
structure ShortcutMatcher where
  patterns : List Pattern
  active_patterns : List Nat
  pending_delayed_ids : List Nat
  next_delayed_id : Nat
  deriving DecidableEq, Repr

/-- Index lookup with the `Inhabited` default (all generated indices are in
range). -/
def getPattern (ps : List Pattern) (i : Nat) : Pattern :=
  ps.getD i default

/-- The comparator used to sort pattern indices by priority, both in
`build_index` and in `process_press`: double-taps with shorter timeouts
first, then patterns without a timeout. -/
def timeoutLE (a b : Option Nat) : Bool :=
  match a, b with
  | some x, some y => x ≤ y
  | some _, none => true
  | none, some _ => false
  | none, none => true

/-- Stable insertion used by `sortByTimeoutPriority`: the new element goes
after every already-placed element whose timeout compares ≤. -/
def insertByTimeout (ps : List Pattern) (i : Nat) : List Nat → List Nat
  | [] => [i]
  | j :: rest =>
    if timeoutLE (getPattern ps j).getTimeout (getPattern ps i).getTimeout then
      j :: insertByTimeout ps i rest
    else
      i :: j :: rest

/-- A stable sort of pattern indices by the timeout comparator (Rust
`sort_by` is stable). -/
def sortByTimeoutPriority (ps : List Pattern) (l : List Nat) : List Nat :=
  l.foldl (fun acc i => insertByTimeout ps i acc) []

/-- `ShortcutMatcher::build_index`, read back at one key: the indices whose
trigger key is `key` (in ascending order, as built by `enumerate`) sorted by
the priority comparator. -/
def patternsForKey (ps : List Pattern) (key : Key) : List Nat :=
  sortByTimeoutPriority ps
    ((List.range ps.length).filter fun i => (getPattern ps i).getTriggerKey = key)

/-- `ShortcutMatcher::new`. -/
def ShortcutMatcher.new (patterns : List Pattern) : ShortcutMatcher :=
  { patterns := patterns
    active_patterns := []
    pending_delayed_ids := []
    next_delayed_id := 0 }

/-- Reset the pattern stored at index `i`. -/
def resetPatternAt (ps : List Pattern) (i : Nat) : List Pattern :=
  ps.set i (getPattern ps i).reset

/-- `ShortcutMatcher::reset_all_patterns`: resets every *active* pattern and
clears the active set. -/
def ShortcutMatcher.resetAllPatterns (m : ShortcutMatcher) : ShortcutMatcher :=
  { m with
    patterns := m.active_patterns.foldl resetPatternAt m.patterns
    active_patterns := [] }

/-- `ShortcutMatcher::cleanup_expired_patterns`. -/
def ShortcutMatcher.cleanupExpiredPatterns (m : ShortcutMatcher) (now : Nat) :
    ShortcutMatcher :=
  let expired := m.active_patterns.filter fun i => (getPattern m.patterns i).isExpired now
  { m with
    patterns := expired.foldl resetPatternAt m.patterns
    active_patterns := m.active_patterns.filter fun i => ¬ expired.contains i }

/-- The result triple of `ShortcutMatcher::process_event`. -/
structure ProcessOut where
  action : Option ShortcutAction
  delayed : List DelayedAction
  cancelled : List Nat
  deriving DecidableEq, Repr

/-- The `for idx in active_patterns` loop of `ShortcutMatcher::process_press`
(matcher.rs lines 112-138), with the Rust early `return` on `Complete`
rendered as stopping the recursion.  The accumulators are
`delayed_actions` and `cancelled_ids`. -/
def pressActiveLoop (key : Key) (now : Nat) :
    List Nat → ShortcutMatcher → List DelayedAction → List Nat →
    Option ShortcutAction × List DelayedAction × List Nat × ShortcutMatcher
  | [], m, delayed, cancelled => (none, delayed, cancelled, m)
  | idx :: rest, m, delayed, cancelled =>
    let (r, p') := (getPattern m.patterns idx).processKeyPress key now
    let m := { m with patterns := m.patterns.set idx p' }
    match r with
    | .complete action =>
      -- cancel all pending delayed actions, reset, drop collected delayed
      let cancelled := cancelled ++ m.pending_delayed_ids
      let m := ShortcutMatcher.resetAllPatterns { m with pending_delayed_ids := [] }
      (some action, [], cancelled, m)
    | .delayed action wait_ms =>
      let id := m.next_delayed_id
      let m := { m with
        next_delayed_id := id + 1
        pending_delayed_ids := m.pending_delayed_ids ++ [id] }
      pressActiveLoop key now rest m
        (delayed ++ [{ id := id, action := action, trigger_at := now + wait_ms }]) cancelled
    | .partialMatch _ =>
      pressActiveLoop key now rest m delayed cancelled
    | .noMatch =>
      pressActiveLoop key now rest
        { m with active_patterns := m.active_patterns.filter (· ≠ idx) } delayed cancelled

/-- The `for &idx in pattern_indices` loop of
`ShortcutMatcher::process_press` (matcher.rs lines 141-171): dispatch to the
not-yet-active patterns whose trigger key is `key`.  `HashSet::insert` on
the active set is modelled as appending the index. -/
def pressNewLoop (key : Key) (now : Nat) :
    List Nat → ShortcutMatcher → List DelayedAction → List Nat →
    Option ShortcutAction × List DelayedAction × List Nat × ShortcutMatcher
  | [], m, delayed, cancelled => (none, delayed, cancelled, m)
  | idx :: rest, m, delayed, cancelled =>
    if m.active_patterns.contains idx then
      pressNewLoop key now rest m delayed cancelled
    else
      let (r, p') := (getPattern m.patterns idx).processKeyPress key now
      let m := { m with patterns := m.patterns.set idx p' }
      match r with
      | .partialMatch _ =>
        pressNewLoop key now rest
          { m with active_patterns := m.active_patterns ++ [idx] } delayed cancelled
      | .complete action =>
        let cancelled := cancelled ++ m.pending_delayed_ids
        let m := ShortcutMatcher.resetAllPatterns { m with pending_delayed_ids := [] }
        (some action, [], cancelled, m)
      | .delayed action wait_ms =>
        let id := m.next_delayed_id
        let m := { m with
          next_delayed_id := id + 1
          pending_delayed_ids := m.pending_delayed_ids ++ [id] }
        pressNewLoop key now rest m
          (delayed ++ [{ id := id, action := action, trigger_at := now + wait_ms }]) cancelled
      | .noMatch =>
        pressNewLoop key now rest m delayed cancelled

/-- `ShortcutMatcher::process_press`.  The active indices are sorted by the
priority comparator; the per-key index built by `build_index` is recomputed
(trigger keys and timeouts are immutable, so the recomputation agrees with
the index stored at construction). -/
def ShortcutMatcher.processPress (m : ShortcutMatcher) (key : Key) (now : Nat) :
    ProcessOut × ShortcutMatcher :=
  let sortedActive := sortByTimeoutPriority m.patterns m.active_patterns
  match pressActiveLoop key now sortedActive m [] [] with
  | (some action, delayed, cancelled, m) => (⟨some action, delayed, cancelled⟩, m)
  | (none, delayed, cancelled, m) =>
    let (action, delayed, cancelled, m) :=
      pressNewLoop key now (patternsForKey m.patterns key) m delayed cancelled
    (⟨action, delayed, cancelled⟩, m)

/-- The loop of `ShortcutMatcher::process_release` (matcher.rs lines
188-199). -/
def releaseLoop (key : Key) (now : Nat) :
    List Nat → ShortcutMatcher → Option ShortcutAction × List Nat × ShortcutMatcher
  | [], m => (none, [], m)
  | idx :: rest, m =>
    let (r, p') := (getPattern m.patterns idx).processKeyRelease key now
    let m := { m with patterns := m.patterns.set idx p' }
    match r with
    | .complete action =>
      let cancelled := m.pending_delayed_ids
      let m := ShortcutMatcher.resetAllPatterns { m with pending_delayed_ids := [] }
      (some action, cancelled, m)
    | _ => releaseLoop key now rest m

/-- `ShortcutMatcher::process_release`: releases produce no new delayed
actions. -/
def ShortcutMatcher.processRelease (m : ShortcutMatcher) (key : Key) (now : Nat) :
    ProcessOut × ShortcutMatcher :=
  let (action, cancelled, m) := releaseLoop key now m.active_patterns m
  (⟨action, [], cancelled⟩, m)

/-- `ShortcutMatcher::process_event`. -/
def ShortcutMatcher.processEvent (m : ShortcutMatcher) (event : KeyEvent) (now : Nat) :
    ProcessOut × ShortcutMatcher :=
  let m := m.cleanupExpiredPatterns now
  match event with
  | .press key => m.processPress key now
  | .release key => m.processRelease key now

/-- `ShortcutMatcher::has_partial_matches` (matcher.rs lines 243-245): the
iteration runs over *all* owned patterns. -/
def ShortcutMatcher.hasPartialMatches (m : ShortcutMatcher) : Bool :=
  m.patterns.any (·.hasPartialMatch)

/-- `ShortcutMatcher::reset`. -/
def ShortcutMatcher.reset (m : ShortcutMatcher) : ShortcutMatcher :=
  m.resetAllPatterns

/-! ## Conflict resolver (shortcut-matcher/src/conflict_resolver.rs) -/

/-- The indices of `ps` whose trigger key is `k`, in ascending order — one
group of `ConflictResolver::group_patterns_by_trigger_key`. -/
def groupIndices (ps : List Pattern) (k : Key) : List Nat :=
  (List.range ps.length).filter fun i => (getPattern ps i).getTriggerKey = k

/-- The distinct trigger keys of `ps`, in first-occurrence order — the key
set of the `HashMap` built by `group_patterns_by_trigger_key` (whose
iteration order is unspecified in Rust; the resolver's effect is
order-independent because groups are disjoint). -/
def groupKeys (ps : List Pattern) : List Key :=
  (ps.map Pattern.getTriggerKey).dedup

/-- Overwrite the conflict strategy of the single-key pattern at index `i`
(`downcast_mut::<SingleKeyPattern>` succeeds only on the single variant). -/
def setStrategyAt (ps : List Pattern) (i : Nat) (strategy : ConflictStrategy) :
    List Pattern :=
  match getPattern ps i with
  | .single s => ps.set i (.single { s with conflict_strategy := strategy })
  | _ => ps

/-- The `strategy` value computed by
`ConflictResolver::apply_type_based_strategies` for one trigger-key group
(the same value on every iteration of its rewrite loop): `FireOnRelease` if
the group has a combo, else `DelayedFire(max double-tap timeout +
buffer_ms)` if it has a double-tap, else `Immediate`. -/
def groupStrategy (buffer_ms : Nat) (pattern_indices : List Nat)
    (ps : List Pattern) : ConflictStrategy :=
  let has_combo := pattern_indices.any fun i => (getPattern ps i).getType = .combo
  let has_double := pattern_indices.any fun i => (getPattern ps i).getType = .doubleTap
  let max_double_timeout := pattern_indices.foldl
    (fun acc i =>
      if (getPattern ps i).getType = .doubleTap then
        max acc ((getPattern ps i).getTimeout.getD 0)
      else acc) 0
  if has_combo then .fireOnRelease
  else if has_double then .delayedFire (max_double_timeout + buffer_ms)
  else .immediate

/-- `ConflictResolver::apply_type_based_strategies`: inspect the type mix of
one trigger-key group and rewrite every single-key member's strategy. -/
def applyTypeBasedStrategies (buffer_ms : Nat) (pattern_indices : List Nat)
    (ps : List Pattern) : List Pattern :=
  let single_indices := pattern_indices.filter fun i => (getPattern ps i).getType = .single
  single_indices.foldl
    (fun acc i => setStrategyAt acc i (groupStrategy buffer_ms pattern_indices ps)) ps

/-- `ConflictResolver::analyze_and_mark_conflicts`: group by trigger key,
keep groups with more than one member, and apply the type-based strategies
to each group.  The groups are computed on the input list (strategy
rewrites change neither trigger keys nor types nor timeouts). -/
def analyzeAndMarkConflicts (buffer_ms : Nat) (ps : List Pattern) : List Pattern :=
  ((groupKeys ps).filter fun k => (groupIndices ps k).length > 1).foldl
    (fun acc k => applyTypeBasedStrategies buffer_ms (groupIndices ps k) acc) ps

/-! ## Pattern DSL parser (shortcut-matcher/src/parser.rs)

The parser operates on Rust `&str` values.  To keep every definition
kernel-computable it is embedded over `List Char` (the character content of
the string), with the Rust `str` primitives (`split`, `trim`,
`starts_with`, `ends_with`, `strip_prefix`/`strip_suffix`, `u64::from_str`)
modelled as the char-list functions below; `String` appears only at the
public entry points. -/

/-- The character content of a string literal. -/
def strChars (s : String) : List Char := s.data

/-- Rust `str::split(sep)` for a one-character separator. -/
def splitOnChar (sep : Char) : List Char → List (List Char)
  | [] => [[]]
  | c :: rest =>
    let r := splitOnChar sep rest
    if c = sep then [] :: r
    else
      match r with
      | [] => [[c]]
      | g :: gs => (c :: g) :: gs

/-- Rust `str::trim` (whitespace on both ends). -/
def trimChars (s : List Char) : List Char :=
  ((s.dropWhile Char.isWhitespace).reverse.dropWhile Char.isWhitespace).reverse

/-- Rust `str::strip_prefix`. -/
def stripPrefixChars : List Char → List Char → Option (List Char)
  | s, [] => some s
  | [], _ :: _ => none
  | c :: s, p :: ps => if c = p then stripPrefixChars s ps else none

/-- Rust `str::strip_suffix`. -/
def stripSuffixChars (s suffix : List Char) : Option (List Char) :=
  (stripPrefixChars s.reverse suffix.reverse).map List.reverse

/-- Rust `u64::from_str` restricted to the plain-digit strings this parser
meets (no sign handling; the timeout values involved are far from
overflow). -/
def parseNatChars (s : List Char) : Option Nat :=
  if s.isEmpty then none
  else if s.all Char.isDigit then
    some (s.foldl (fun acc c => acc * 10 + (c.toNat - 48)) 0)
  else none

inductive ParseError where
  | invalidFormat (s : List Char)
  | unknownKey (s : List Char)
  | invalidTimeout (s : List Char)
  | emptyPattern
  deriving DecidableEq, Repr

/-- `parse_ambiguous_modifier_key`. -/
def parseAmbiguousModifierKey (name : List Char) : Option (Key × Key) :=
  if name = strChars "Control" ∨ name = strChars "Ctrl" then
    some (.ControlLeft, .ControlRight)
  else if name = strChars "Shift" then
    some (.ShiftLeft, .ShiftRight)
  else if name = strChars "Alt" ∨ name = strChars "Option" then
    some (.Alt, .AltGr)
  else if name = strChars "Meta" ∨ name = strChars "Cmd" ∨ name = strChars "Command" ∨
      name = strChars "Win" ∨ name = strChars "Windows" ∨ name = strChars "Super" then
    some (.MetaLeft, .MetaRight)
  else
    none

/-- The letter rows of `parse_key_name` (`"KeyA" | "A" => Key::KeyA`, …). -/
def parseLetterKeyName (name : List Char) : Option Key :=
  if name = strChars "KeyA" ∨ name = strChars "A" then some .KeyA
  else if name = strChars "KeyB" ∨ name = strChars "B" then some .KeyB
  else if name = strChars "KeyC" ∨ name = strChars "C" then some .KeyC
  else if name = strChars "KeyD" ∨ name = strChars "D" then some .KeyD
  else if name = strChars "KeyE" ∨ name = strChars "E" then some .KeyE
  else if name = strChars "KeyF" ∨ name = strChars "F" then some .KeyF
  else if name = strChars "KeyG" ∨ name = strChars "G" then some .KeyG
  else if name = strChars "KeyH" ∨ name = strChars "H" then some .KeyH
  else if name = strChars "KeyI" ∨ name = strChars "I" then some .KeyI
  else if name = strChars "KeyJ" ∨ name = strChars "J" then some .KeyJ
  else if name = strChars "KeyK" ∨ name = strChars "K" then some .KeyK
  else if name = strChars "KeyL" ∨ name = strChars "L" then some .KeyL
  else if name = strChars "KeyM" ∨ name = strChars "M" then some .KeyM
  else if name = strChars "KeyN" ∨ name = strChars "N" then some .KeyN
  else if name = strChars "KeyO" ∨ name = strChars "O" then some .KeyO
  else if name = strChars "KeyP" ∨ name = strChars "P" then some .KeyP
  else if name = strChars "KeyQ" ∨ name = strChars "Q" then some .KeyQ
  else if name = strChars "KeyR" ∨ name = strChars "R" then some .KeyR
  else if name = strChars "KeyS" ∨ name = strChars "S" then some .KeyS
  else if name = strChars "KeyT" ∨ name = strChars "T" then some .KeyT
  else if name = strChars "KeyU" ∨ name = strChars "U" then some .KeyU
  else if name = strChars "KeyV" ∨ name = strChars "V" then some .KeyV
  else if name = strChars "KeyW" ∨ name = strChars "W" then some .KeyW
  else if name = strChars "KeyX" ∨ name = strChars "X" then some .KeyX
  else if name = strChars "KeyY" ∨ name = strChars "Y" then some .KeyY
  else if name = strChars "KeyZ" ∨ name = strChars "Z" then some .KeyZ
  else none

/-- The function-key rows of `parse_key_name`. -/
def parseFKeyName (name : List Char) : Option Key :=
  if name = strChars "F1" then some .F1
  else if name = strChars "F2" then some .F2
  else if name = strChars "F3" then some .F3
  else if name = strChars "F4" then some .F4
  else if name = strChars "F5" then some .F5
  else if name = strChars "F6" then some .F6
  else if name = strChars "F7" then some .F7
  else if name = strChars "F8" then some .F8
  else if name = strChars "F9" then some .F9
  else if name = strChars "F10" then some .F10
  else if name = strChars "F11" then some .F11
  else if name = strChars "F12" then some .F12
  else none

/-- `parse_key_name`. -/
def parseKeyName (name : List Char) : Except ParseError Key :=
  if name = strChars "CommandLeft" ∨ name = strChars "MetaLeft" then .ok .MetaLeft
  else if name = strChars "CommandRight" ∨ name = strChars "MetaRight" then .ok .MetaRight
  else if name = strChars "ControlLeft" then .ok .ControlLeft
  else if name = strChars "ControlRight" then .ok .ControlRight
  else if name = strChars "ShiftLeft" then .ok .ShiftLeft
  else if name = strChars "ShiftRight" then .ok .ShiftRight
  else if name = strChars "AltLeft" then .ok .Alt
  else if name = strChars "AltRight" then .ok .AltGr
  else
    match parseLetterKeyName name with
    | some k => .ok k
    | none =>
      if name = strChars "Escape" ∨ name = strChars "Esc" then .ok .Escape
      else if name = strChars "Space" then .ok .Space
      else if name = strChars "Return" ∨ name = strChars "Enter" then .ok .Return
      else if name = strChars "Tab" then .ok .Tab
      else if name = strChars "Backspace" then .ok .Backspace
      else if name = strChars "Delete" then .ok .Delete
      else
        match parseFKeyName name with
        | some k => .ok k
        | none => .error (.unknownKey name)

/-- `parse_single_key`. -/
def parseSingleKey (input : List Char) (action : ShortcutAction) :
    Except ParseError (List Pattern) :=
  match parseAmbiguousModifierKey input with
  | some (left, right) =>
    .ok [.single (SingleKeyPattern.new left action),
         .single (SingleKeyPattern.new right action)]
  | none => do
    let key ← parseKeyName input
    .ok [.single (SingleKeyPattern.new key action)]

/-- The sequence-expansion fold inside `parse_combo`: ambiguous modifiers
split every partial sequence into a left and a right variant. -/
def comboExpandStep (sequences : List (List Key)) (key_name : List Char) :
    Except ParseError (List (List Key)) :=
  match parseAmbiguousModifierKey key_name with
  | some (left, right) =>
    .ok (sequences.foldr
      (fun sequence acc => (sequence ++ [left]) :: (sequence ++ [right]) :: acc) [])
  | none => do
    let key ← parseKeyName key_name
    .ok (sequences.map fun sequence => sequence ++ [key])

/-- `parse_combo`: split on `+`, trim, expand ambiguous modifiers into the
Cartesian product, and build one `ComboPattern` per expanded sequence. -/
def parseCombo (input : List Char) (action : ShortcutAction) :
    Except ParseError (List Pattern) := do
  let key_names := (splitOnChar '+' input).map trimChars
  if key_names.isEmpty then
    .error .emptyPattern
  else
    let sequences ← key_names.foldlM comboExpandStep [[]]
    .ok (sequences.map fun sequence => Pattern.combo ⟨sequence, 0, [], action⟩)

/-- `parse_double_tap`: strip the surrounding marker, split on the comma,
parse the optional timeout (default 300), and expand ambiguous modifiers. -/
def parseDoubleTap (input : List Char) (action : ShortcutAction) :
    Except ParseError (List Pattern) := do
  let content ←
    match (stripPrefixChars input (strChars "double(")).bind
        (fun s => stripSuffixChars s (strChars ")")) with
    | some s => Except.ok s
    | none => Except.error (.invalidFormat input)
  let parts := (splitOnChar ',' content).map trimChars
  if parts.isEmpty then
    .error .emptyPattern
  else
    let timeout_ms ←
      if hlen : parts.length > 1 then
        match parseNatChars (parts.get ⟨1, hlen⟩) with
        | some n => Except.ok n
        | none => Except.error (ParseError.invalidTimeout (parts.get ⟨1, hlen⟩))
      else
        Except.ok 300
    let head := parts.headD []
    match parseAmbiguousModifierKey head with
    | some (left, right) =>
      .ok [.double ⟨left, timeout_ms, action, none⟩,
           .double ⟨right, timeout_ms, action, none⟩]
    | none => do
      let key ← parseKeyName head
      .ok [.double ⟨key, timeout_ms, action, none⟩]

/-- `parse_pattern`: trim, reject empties, and dispatch on shape. -/
def parsePatternChars (input : List Char) (action : ShortcutAction) :
    Except ParseError (List Pattern) :=
  let input := trimChars input
  if input.isEmpty then
    .error .emptyPattern
  else if (stripPrefixChars input (strChars "double(")).isSome ∧
      (stripSuffixChars input (strChars ")")).isSome then
    parseDoubleTap input action
  else if input.contains '+' then
    parseCombo input action
  else
    parseSingleKey input action

def parsePattern (input : String) (action : ShortcutAction) :
    Except ParseError (List Pattern) :=
  parsePatternChars input.data action

/-- `parse_multiple_patterns`: split on `;`, trim, skip empty entries, and
propagate the first parse error (the `?` operator aborts the whole list). -/
def parseMultiplePatternsChars (input : List Char) (action : ShortcutAction) :
    Except ParseError (List Pattern) := do
  let patterns := (splitOnChar ';' input).map trimChars
  let result ← patterns.foldlM
    (fun acc pattern_str => do
      if pattern_str.isEmpty then
        pure acc
      else
        let parsed ← parsePatternChars pattern_str action
        pure (acc ++ parsed))
    ([] : List Pattern)
  .ok result

def parseMultiplePatterns (input : String) (action : ShortcutAction) :
    Except ParseError (List Pattern) :=
  parseMultiplePatternsChars input.data action

/-! ## Matcher engine (shortcut-matcher/src/engine.rs) -/

/-- The slice of the global `Config` read by the engine and the audio
recorder (config/src/config.rs).  `Config::global()` is modelled by passing
a `Config` value to the functions that read it. -/
structure Config where
  start_keys : List String
  stop_keys : List String
  cancel_keys : List String
  pause_keys : List String
  shortcut_resolution_delay_ms : Option Nat
  sample_rate : Nat
  initial_buffer_seconds : Nat
  deriving DecidableEq, Repr

/-- The defaults applied by `Config` initialisation (config.rs): fixed
sample rate 48000, 15 s initial buffer, 50 ms resolution delay, and the
default patterns for empty key lists. -/
def Config.default : Config :=
  { start_keys := ["double(ControlLeft, 300)"]
    stop_keys := ["ControlLeft"]
    cancel_keys := ["double(Escape, 300)"]
    pause_keys := []
    shortcut_resolution_delay_ms := some 50
    sample_rate := 48000
    initial_buffer_seconds := 15 }

/-- `MatcherEngine`.  The `is_actively_listening` and `last_activity`
atomics are carried as plain fields (they are not touched by event
processing). -/
structure MatcherEngine where
  matcher : ShortcutMatcher
  current_state : ShortcutEngineState
  buffer_ms : Nat
  pending_delayed : List DelayedAction
  is_actively_listening : Bool
  last_activity : Nat
  pattern_configs : Option (List (String × ShortcutAction))
  deriving DecidableEq, Repr

/-- `MatcherEngine::get_available_actions`. -/
def getAvailableActions (state : ShortcutEngineState) : List ShortcutAction :=
  match state with
  | .idle => [.start]
  | .active => [.stop, .cancel, .pause]
  | .paused => [.pause, .cancel, .stop]

/-- `MatcherEngine::get_keys_for_action`. -/
def getKeysForAction (config : Config) (action : ShortcutAction) : List String :=
  match action with
  | .start => config.start_keys
  | .stop => config.stop_keys
  | .cancel => config.cancel_keys
  | .pause => config.pause_keys

/-- `MatcherEngine::parse_patterns_internal`: parse every config entry,
log-and-drop entries whose parse fails, then run the conflict resolver. -/
def parsePatternsInternal (pattern_configs : List (String × ShortcutAction))
    (buffer_ms : Nat) : List Pattern :=
  let all_patterns := pattern_configs.foldl
    (fun acc c =>
      match parseMultiplePatterns c.1 c.2 with
      | .ok patterns => acc ++ patterns
      | .error _ => acc)  -- logged and dropped
    []
  analyzeAndMarkConflicts buffer_ms all_patterns

/-- `MatcherEngine::build_patterns_for_state`: the configured pattern
strings of the actions available in `state` (the pause entry is skipped
when its key list is empty). -/
def buildPatternsForState (config : Config) (state : ShortcutEngineState)
    (buffer_ms : Nat) : List Pattern :=
  let pattern_configs :=
    (((getAvailableActions state).filter fun action =>
        ¬ (action = .pause ∧ (getKeysForAction config action).isEmpty)).map
      fun action => (getKeysForAction config action).map fun key => (key, action)).flatten
  parsePatternsInternal pattern_configs buffer_ms

/-- `MatcherEngine::set_state`: on a state change, rebuild the matcher from
the stored textual patterns filtered to the newly available actions (or
from the global config when none are stored). -/
def MatcherEngine.setState (config : Config) (e : MatcherEngine)
    (state : ShortcutEngineState) : MatcherEngine :=
  if e.current_state ≠ state then
    let patterns :=
      match e.pattern_configs with
      | some stored_configs =>
        let available_actions := getAvailableActions state
        let filtered_configs :=
          stored_configs.filter fun c => available_actions.contains c.2
        parsePatternsInternal filtered_configs e.buffer_ms
      | none => buildPatternsForState config state e.buffer_ms
    { e with current_state := state, matcher := ShortcutMatcher.new patterns }
  else
    e

/-- `MatcherEngine::determine_next_state`. -/
def determineNextState (action : ShortcutAction) (current_state : ShortcutEngineState) :
    ShortcutEngineState :=
  match action with
  | .start => .active
  | .stop => .idle
  | .cancel => .idle
  | .pause => match current_state with
    | .paused => .active
    | _ => .paused

/-- `MatcherEngine::check_and_trigger_delayed`: remove and return the first
pending entry whose `trigger_at` has passed. -/
def checkAndTriggerDelayed : List DelayedAction → Nat → Option ShortcutAction × List DelayedAction
  | [], _ => (none, [])
  | d :: rest, now =>
    if d.trigger_at ≤ now then
      (some d.action, rest)
    else
      let (a, rest') := checkAndTriggerDelayed rest now
      (a, d :: rest')

/-- The part of `MatcherEngine::process_event_with_time` that runs after the
matcher call (engine.rs lines 191-220), taking the mutated matcher `m'` and
the result triple as inputs: the invariant-violation guard, the
cancellation/extension of the pending list, the delayed trigger scan, and
the state transition. -/
def MatcherEngine.applyMatcherResult (config : Config) (e : MatcherEngine)
    (m' : ShortcutMatcher) (out : ProcessOut) (now : Nat) :
    Option ShortcutAction × MatcherEngine :=
  if out.action.isSome ∧ ¬ out.delayed.isEmpty then
    -- invariant violation: log and drop the event
    (none, { e with matcher := m' })
  else
    let e := { e with matcher := m' }
    let pending :=
      if ¬ out.cancelled.isEmpty then
        e.pending_delayed.filter fun d => ¬ out.cancelled.contains d.id
      else e.pending_delayed
    let pending := if ¬ out.delayed.isEmpty then pending ++ out.delayed else pending
    let (triggered_action, pending) := checkAndTriggerDelayed pending now
    let e := { e with pending_delayed := pending }
    let action := match out.action with
      | some a => some a
      | none => triggered_action
    match action with
    | some a => (some a, e.setState config (determineNextState a e.current_state))
    | none => (none, e)

/-- `MatcherEngine::process_event_with_time`. -/
def MatcherEngine.processEventWithTime (config : Config) (e : MatcherEngine)
    (event : KeyEvent) (now : Nat) : Option ShortcutAction × MatcherEngine :=
  let (out, m') := e.matcher.processEvent event now
  e.applyMatcherResult config m' out now

/-- `MatcherEngine::poll_delayed_action` (the `Instant::now()` argument is
explicit). -/
def MatcherEngine.pollDelayedAction (config : Config) (e : MatcherEngine) (now : Nat) :
    Option ShortcutAction × MatcherEngine :=
  let (action, pending) := checkAndTriggerDelayed e.pending_delayed now
  let e := { e with pending_delayed := pending }
  match action with
  | some a => (some a, e.setState config (determineNextState a e.current_state))
  | none => (none, e)

/-- `MatcherEngine::new_with_patterns`. -/
def MatcherEngine.newWithPatterns (buffer_ms : Option Nat)
    (pattern_configs : List (String × ShortcutAction)) : MatcherEngine :=
  let buffer_ms := buffer_ms.getD 50
  { matcher := ShortcutMatcher.new (parsePatternsInternal pattern_configs buffer_ms)
    current_state := .idle
    buffer_ms := buffer_ms
    pending_delayed := []
    is_actively_listening := false
    last_activity := 0
    pattern_configs := some pattern_configs }

/-! ## Dynamic capture buffer (audio/src/dynamic_buffer.rs) -/

/-- `DynamicBuffer`.  The `Vec<u8>` is modelled as contents plus an explicit
capacity; `Vec::reserve` up to the computed target is modelled as setting
the capacity to that target (the code's `new_capacity`, which its own debug
log reports as the new capacity). -/
structure DynamicBuffer where
  buffer : List Nat
  cap : Nat
  initial_capacity : Nat
  growth_increment : Nat
  last_logged_capacity : Nat
  deriving DecidableEq, Repr

/-- `DynamicBuffer::new`: `initial_capacity = sample_rate × 2 ×
initial_buffer_seconds`, `growth_increment = sample_rate × 2 × 15`. -/
def DynamicBuffer.new (config : Config) : DynamicBuffer :=
  let initial_capacity := config.sample_rate * 2 * config.initial_buffer_seconds
  let growth_increment := config.sample_rate * 2 * 15
  { buffer := []
    cap := initial_capacity
    initial_capacity := initial_capacity
    growth_increment := growth_increment
    last_logged_capacity := initial_capacity }

/-- `DynamicBuffer::write`: grow to
`((required / growth_increment) + 1) * growth_increment` when the required
size exceeds the capacity, then append. -/
def DynamicBuffer.write (b : DynamicBuffer) (data : List Nat) : DynamicBuffer :=
  let required_capacity := b.buffer.length + data.length
  if required_capacity > b.cap then
    let new_capacity := (required_capacity / b.growth_increment + 1) * b.growth_increment
    { b with
      buffer := b.buffer ++ data
      cap := new_capacity
      last_logged_capacity :=
        if new_capacity ≥ b.last_logged_capacity + b.growth_increment then new_capacity
        else b.last_logged_capacity }
  else
    { b with buffer := b.buffer ++ data }

/-- `DynamicBuffer::read_all`: move the accumulated bytes out and install a
fresh empty buffer at `initial_capacity`. -/
def DynamicBuffer.readAll (b : DynamicBuffer) : List Nat × DynamicBuffer :=
  (b.buffer, { b with buffer := [], cap := b.initial_capacity })

/-- `DynamicBuffer::reset`: clear and `shrink_to(initial_capacity)` (the
capacity cannot grow by shrinking). -/
def DynamicBuffer.reset (b : DynamicBuffer) : DynamicBuffer :=
  { b with
    buffer := []
    cap := min b.cap b.initial_capacity
    last_logged_capacity := b.initial_capacity }

/-- `DynamicBuffer::len`. -/
def DynamicBuffer.len (b : DynamicBuffer) : Nat :=
  b.buffer.length

/-! ## Audio recorder (audio/src/audio_recorder.rs, audio/src/error.rs) -/

/-- The `AudioError` variants reachable from the recorder worker.  Variants
carrying foreign payloads (`cpal` errors, strings) keep only an opaque
marker. -/
inductive AudioError where
  | deviceError
  | streamError
  | buildStreamError
  | playStreamError
  | defaultStreamConfigError
  | unsupportedFormat
  | channelError
  | stateError (s : String)
  | ioError
  | wavError
  | noInputDevice
  | noOutputDevice
  | alreadyRecording
  | notRecording
  | alreadyPaused
  | notPaused
  | threadCommunicationFailed
  deriving DecidableEq, Repr

/-- `create_stream_with_retry` (audio_recorder.rs lines 122-166), with the
environment made explicit: `device_available attempt` tells whether
`default_input_device()` finds a device on the given attempt, and
`build_outcome attempt` is the result of `create_stream` (plus stream
construction) on that attempt.  The returned `Nat` counts the construction
attempts actually made.  `MAX_RETRIES` is 1 and the loop runs over attempts
`1..=MAX_RETRIES`; an exhausted loop falls through to the final
`StateError`. -/
def MAX_RETRIES : Nat := 1

def createStreamRetryLoop (device_available : Nat → Bool)
    (build_outcome : Nat → Except AudioError Unit) :
    List Nat → Nat → Except AudioError Unit × Nat
  | [], attempts => (.error (.stateError ("Maximum retry attempts exceeded")), attempts)
  | attempt :: rest, attempts =>
    if ¬ device_available attempt then
      (.error .noInputDevice, attempts)
    else
      match build_outcome attempt with
      | .ok s => (.ok s, attempts + 1)
      | .error e =>
        if attempt < MAX_RETRIES then
          -- sleep 100 ms, then retry with the new default device
          createStreamRetryLoop device_available build_outcome rest (attempts + 1)
        else
          (.error e, attempts + 1)

def createStreamWithRetry (device_available : Nat → Bool)
    (build_outcome : Nat → Except AudioError Unit) : Except AudioError Unit × Nat :=
  createStreamRetryLoop device_available build_outcome
    (List.range' 1 MAX_RETRIES) 0

/-- `AudioData` (audio_recorder.rs). -/
structure AudioData where
  samples : List Nat
  sample_rate : Nat
  channels : Nat
  duration_ms : Nat
  deriving DecidableEq, Repr

/-- The worker `Command` alphabet. -/
inductive Command where
  | startRecording
  | stopRecording
  | pauseRecording
  | resumeRecording
  | getBufferSnapshot
  | shutdown
  deriving DecidableEq, Repr

/-- The worker `Response` alphabet. -/
inductive Response where
  | started
  | stopped (d : AudioData)
  | paused (d : AudioData)
  | resumed
  | bufferSnapshot (data : List Nat)
  | error (e : AudioError)
  deriving DecidableEq, Repr

/-- `InternalState` of the worker.  The `Stream` handle is opaque and the
ring buffer (not read by any worker command) is a presence marker. -/
structure InternalState where
  stream : Option Unit
  buffer : DynamicBuffer
  realtime_ring : Option Unit
  start_time : Option Nat
  segments : List (List Nat)
  is_paused : Bool
  deriving DecidableEq, Repr

/-- The two atomic flags mirrored for the public handle. -/
structure SharedState where
  is_recording : Bool
  is_paused : Bool
  deriving DecidableEq, Repr

/-- `InternalState::new`. -/
def InternalState.new (config : Config) (realtime_ring : Option Unit) : InternalState :=
  { stream := none
    buffer := DynamicBuffer.new config
    realtime_ring := realtime_ring
    start_time := none
    segments := []
    is_paused := false }

/-- The per-command environment: the outcome of building-and-playing an
input stream (for StartRecording / ResumeRecording) and the current
monotonic time in ms. -/
structure WorkerEnv where
  stream_outcome : Except AudioError Unit
  now : Nat
  deriving Repr

/-- `handle_command` (audio_recorder.rs lines 361-511).  The result
response is `none` exactly on Shutdown (`Ok(None)`, which exits the worker
loop); a Rust `Err(e)` is rendered as `some (Response.error e)`, matching
what `run_audio_thread` sends back in that case.  The 500 ms stop-flush
sleep has no functional content in this sequential model. -/
def handleCommand (config : Config) (cmd : Command) (env : WorkerEnv)
    (state : InternalState) (shared : SharedState) :
    Option Response × InternalState × SharedState :=
  match cmd with
  | .startRecording =>
    if state.stream.isSome then
      (some (.error .alreadyRecording), state, shared)
    else
      let state := { state with buffer := state.buffer.reset, segments := [] }
      match env.stream_outcome with
      | .error e => (some (.error e), state, shared)
      | .ok _ =>
        let state := { state with
          stream := some ()
          start_time := some env.now
          is_paused := false }
        (some .started, state, { is_recording := true, is_paused := false })
  | .stopRecording =>
    if state.stream.isNone ∧ ¬ state.is_paused then
      (some (.error .notRecording), state, shared)
    else
      -- sleep 500 ms to flush the last callback's audio
      let (current_data, buffer) :=
        if state.stream.isSome then state.buffer.readAll
        else ([], state.buffer)
      let all_samples := state.segments.flatten ++ current_data
      let duration_ms :=
        match state.start_time with
        | some t => env.now - t
        | none => 0
      let state := { state with
        buffer := buffer.reset
        stream := none
        start_time := none
        segments := []
        is_paused := false }
      let audio_data : AudioData :=
        { samples := all_samples
          sample_rate := config.sample_rate
          channels := 1
          duration_ms := duration_ms }
      (some (.stopped audio_data), state, { is_recording := false, is_paused := false })
  | .pauseRecording =>
    if state.stream.isNone then
      (some (.error .notRecording), state, shared)
    else if state.is_paused then
      (some (.error .alreadyPaused), state, shared)
    else
      let (current_data, buffer) := state.buffer.readAll
      let duration_ms :=
        match state.start_time with
        | some t => env.now - t
        | none => 0
      let state := { state with
        buffer := buffer
        segments := state.segments ++ [current_data]
        stream := none
        is_paused := true }
      let audio_data : AudioData :=
        { samples := current_data
          sample_rate := config.sample_rate
          channels := 1
          duration_ms := duration_ms }
      (some (.paused audio_data), state, { is_recording := false, is_paused := true })
  | .resumeRecording =>
    if ¬ state.is_paused then
      (some (.error .notPaused), state, shared)
    else
      match env.stream_outcome with
      | .error e => (some (.error e), state, shared)
      | .ok _ =>
        let state := { state with stream := some (), is_paused := false }
        (some .resumed, state, { is_recording := true, is_paused := false })
  | .getBufferSnapshot =>
    let data := if state.stream.isSome then state.buffer.buffer else []
    (some (.bufferSnapshot data), state, shared)
  | .shutdown =>
    (none, state, { is_recording := false, is_paused := false })

/-- The worker loop of `run_audio_thread`: fold `handle_command` over the
received commands, exiting on Shutdown. -/
def runWorker (config : Config) :
    List (Command × WorkerEnv) → InternalState × SharedState → InternalState × SharedState
  | [], st => st
  | (cmd, env) :: rest, (state, shared) =>
    match handleCommand config cmd env state shared with
    | (none, state', shared') => (state', shared')
    | (some _, state', shared') => runWorker config rest (state', shared')

/-- The worker state at thread start: fresh internal state, both flags
false. -/
def initialWorkerState (config : Config) (realtime_ring : Option Unit) :
    InternalState × SharedState :=
  (InternalState.new config realtime_ring, { is_recording := false, is_paused := false })

/-! ## Derived definitions used by the verification statements -/

/-- Modelled from the spec's words, for comparison with the code's growth
arithmetic: the least multiple of `g` that is at or above `n` ("reserve up
to the next multiple of `growth_increment` at or above the required
size"). -/
def leastMultipleGE (g n : Nat) : Nat :=
  if n % g = 0 then n else (n / g + 1) * g

/-- The double-tap-priority scenario: a fresh engine whose matcher holds a
single-key pattern and a double-tap pattern (timeout `t_ms`) on the same
trigger key `k`, with the single's strategy as rewritten by the conflict
resolver. -/
def doubleTapConflictEngine (k : Key) (t_ms buffer_ms : Nat)
    (single_action double_action : ShortcutAction) : MatcherEngine :=
  { matcher := ShortcutMatcher.new (analyzeAndMarkConflicts buffer_ms
      [.single (SingleKeyPattern.new k single_action),
       .double ⟨k, t_ms, double_action, none⟩])
    current_state := .idle
    buffer_ms := buffer_ms
    pending_delayed := []
    is_actively_listening := false
    last_activity := 0
    pattern_configs := none }

/-- The invariant of claim C10: whenever the worker reports itself paused,
it holds no stream. -/
def PausedNoStream (st : InternalState × SharedState) : Prop :=
  st.1.is_paused = true → st.1.stream = none

/-- The matcher state reached by pressing the trigger key of a lone
Immediate single-key pattern (used to settle claim C8). -/
def immediateSinglePressed : ShortcutMatcher :=
  ((ShortcutMatcher.new [.single (SingleKeyPattern.new .ControlLeft .start)]).processEvent
    (.press .ControlLeft) 0).2

/-! ## Theorems

Helper lemmas first, then one named theorem per claim (with its witness or
counterexample where required). -/

theorem write_buffer_append (b : DynamicBuffer) (data : List Nat) :
    (b.write data).buffer = b.buffer ++ data := by
  unfold DynamicBuffer.write
  dsimp only
  split <;> rfl

theorem write_initial_capacity (b : DynamicBuffer) (data : List Nat) :
    (b.write data).initial_capacity = b.initial_capacity := by
  unfold DynamicBuffer.write
  dsimp only
  split <;> rfl

theorem foldl_write_buffer (writes : List (List Nat)) (b : DynamicBuffer) :
    (writes.foldl DynamicBuffer.write b).buffer = b.buffer ++ writes.flatten := by
  induction writes generalizing b with
  | nil => simp
  | cons w ws ih => simp [List.foldl_cons, ih, write_buffer_append]

theorem foldl_write_initial_capacity (writes : List (List Nat)) (b : DynamicBuffer) :
    (writes.foldl DynamicBuffer.write b).initial_capacity = b.initial_capacity := by
  induction writes generalizing b with
  | nil => rfl
  | cons w ws ih => simp [List.foldl_cons, ih, write_initial_capacity]

theorem growth_arith (m g : Nat) (hg : 0 < g) :
    ((m / g + 1) * g) % g = 0 ∧ m < (m / g + 1) * g ∧ (m / g + 1) * g ≤ m + g := by
  have h1 : g * (m / g) + m % g = m := Nat.div_add_mod m g
  have h2 : m % g < g := Nat.mod_lt _ hg
  have hring : (m / g + 1) * g = g * (m / g) + g := by ring
  refine ⟨Nat.mul_mod_left _ _, ?_, ?_⟩ <;>
  · rw [hring]
    obtain ⟨A, hA⟩ : ∃ A, g * (m / g) = A := ⟨_, rfl⟩
    obtain ⟨r, hr⟩ : ∃ r, m % g = r := ⟨_, rfl⟩
    rw [hA, hr] at h1
    rw [hr] at h2
    rw [hA]
    omega

/-- C5: for every sequence of byte slices written via `write`, `read_all`
returns exactly their concatenation in write order, and immediately
afterwards the buffer's length is 0 and a fresh buffer at
`initial_capacity` is installed. -/
theorem buffer_round_trip (config : Config) (writes : List (List Nat)) :
    ((writes.foldl DynamicBuffer.write (DynamicBuffer.new config)).readAll).1
      = writes.flatten ∧
    ((writes.foldl DynamicBuffer.write (DynamicBuffer.new config)).readAll).2.len = 0 ∧
    ((writes.foldl DynamicBuffer.write (DynamicBuffer.new config)).readAll).2.cap
      = (DynamicBuffer.new config).initial_capacity := by
  refine ⟨?_, rfl, ?_⟩
  · show (writes.foldl DynamicBuffer.write (DynamicBuffer.new config)).buffer = _
    rw [foldl_write_buffer]
    rfl
  · show (writes.foldl DynamicBuffer.write (DynamicBuffer.new config)).initial_capacity = _
    rw [foldl_write_initial_capacity]

/-- C9 (amended): on overflow the new capacity is the least multiple of
`growth_increment` *strictly greater* than `length + data.len()` (the code
computes `((required / growth) + 1) * growth`, which exceeds `required`
even when `required` is itself a multiple); without overflow the capacity
is unchanged; the contents always become the old contents followed by
`data`. -/
theorem buffer_growth_amended (b : DynamicBuffer) (data : List Nat)
    (hg : 0 < b.growth_increment) :
    (b.write data).buffer = b.buffer ++ data ∧
    (b.buffer.length + data.length ≤ b.cap → (b.write data).cap = b.cap) ∧
    (b.buffer.length + data.length > b.cap →
      (b.write data).cap % b.growth_increment = 0 ∧
      b.buffer.length + data.length < (b.write data).cap ∧
      (b.write data).cap ≤ b.buffer.length + data.length + b.growth_increment) := by
  refine ⟨write_buffer_append b data, ?_, ?_⟩
  · intro h
    unfold DynamicBuffer.write
    dsimp only
    rw [if_neg (by omega)]
  · intro h
    have hcap : (b.write data).cap
        = ((b.buffer.length + data.length) / b.growth_increment + 1) * b.growth_increment := by
      unfold DynamicBuffer.write
      dsimp only
      rw [if_pos h]
    rw [hcap]
    exact growth_arith (b.buffer.length + data.length) b.growth_increment hg

/-- C9 counterexample: starting from the code's own constructor
(`sample_rate = 1`, 15 s ⇒ `initial_capacity = growth_increment = 30`) and
writing two 30-byte slices, the required size 60 is an exact multiple of
the increment; the claim's "least multiple at or above" is 60, but the
code grows the capacity to 90. -/
theorem buffer_growth_counterexample :
    ((DynamicBuffer.new
        { Config.default with sample_rate := 1, initial_buffer_seconds := 15 }).write
      (List.replicate 30 0) |>.write (List.replicate 30 0)).cap = 90 ∧
    leastMultipleGE 30 60 = 60 ∧ (90 : Nat) ≠ 60 := by
  refine ⟨by decide, by decide, by decide⟩

/-- Witness for `buffer_growth_amended` at a concrete overflowing write. -/
theorem buffer_growth_amended_witness :
    0 < (⟨[], 2, 2, 4, 2⟩ : DynamicBuffer).growth_increment ∧
    ((⟨[], 2, 2, 4, 2⟩ : DynamicBuffer).write [0, 0, 0]).buffer = [] ++ [0, 0, 0] ∧
    ((⟨[], 2, 2, 4, 2⟩ : DynamicBuffer).write [0, 0, 0]).cap % 4 = 0 ∧
    (List.length ([] : List Nat) + List.length [0, 0, 0] <
      ((⟨[], 2, 2, 4, 2⟩ : DynamicBuffer).write [0, 0, 0]).cap) := by
  have h := buffer_growth_amended (⟨[], 2, 2, 4, 2⟩ : DynamicBuffer) [0, 0, 0] (by decide)
  exact ⟨by decide, h.1, (h.2.2 (by decide)).1, (h.2.2 (by decide)).2.1⟩

/-- C3: with `MAX_RETRIES = 1` the loop `for attempt in 1..=MAX_RETRIES`
runs a single iteration and `attempt < MAX_RETRIES` is never true, so a
failing first construction attempt is returned immediately — exactly one
attempt is made and the retry branch (100 ms sleep, second attempt) is
unreachable, contradicting the claimed retry-once behaviour. -/
theorem stream_retry_never_retries :
    createStreamWithRetry (fun _ => true) (fun _ => .error .buildStreamError)
      = (.error .buildStreamError, 1) ∧
    (∀ outcome : Nat → Except AudioError Unit,
      createStreamWithRetry (fun _ => true) outcome
        = (outcome 1, 1)) := by
  constructor
  · rfl
  · intro outcome
    show createStreamRetryLoop (fun _ => true) outcome [1] 0 = (outcome 1, 1)
    unfold createStreamRetryLoop
    simp only [Bool.not_true, Bool.false_eq_true, if_false]
    cases h : outcome 1 with
    | ok s => simp [h]
    | error e => simp [h, MAX_RETRIES]

/-- C7: whenever the matcher result handed to the engine carries both an
immediate action and a non-empty list of new delayed actions,
`process_event_with_time` (whose post-matcher half is
`applyMatcherResult`) returns no action and leaves the engine unchanged:
the state is kept, the pending-delayed list is neither trimmed nor
extended, and the matcher is exactly the one the matcher call produced
(not reset). -/
theorem invariant_violation_drops_event (config : Config) (e : MatcherEngine)
    (m' : ShortcutMatcher) (out : ProcessOut) (now : Nat) (a : ShortcutAction)
    (h1 : out.action = some a) (h2 : out.delayed ≠ []) :
    e.applyMatcherResult config m' out now = (none, { e with matcher := m' }) := by
  unfold MatcherEngine.applyMatcherResult
  rw [if_pos]
  exact ⟨by simp [h1], by simp [h2]⟩

/-- Witness for `invariant_violation_drops_event` at a concrete engine and
result triple. -/
theorem invariant_violation_witness :
    (MatcherEngine.newWithPatterns none []).applyMatcherResult Config.default
        (ShortcutMatcher.new []) ⟨some .start, [⟨0, .stop, 5⟩], []⟩ 7
      = (none,
          { (MatcherEngine.newWithPatterns none []) with matcher := ShortcutMatcher.new [] }) :=
  invariant_violation_drops_event Config.default (MatcherEngine.newWithPatterns none [])
    (ShortcutMatcher.new []) ⟨some .start, [⟨0, .stop, 5⟩], []⟩ 7 .start rfl (by decide)

/-- C8 (amended): `has_partial_matches()` is true iff some pattern among
*all* the patterns the matcher holds — active or not — reports a partial
match (matcher.rs iterates `self.patterns`, not the active set). -/
theorem has_partial_matches_all_patterns (m : ShortcutMatcher) :
    m.hasPartialMatches = true ↔ ∃ p ∈ m.patterns, p.hasPartialMatch = true := by
  simp [ShortcutMatcher.hasPartialMatches, List.any_eq_true]

/-- C8 counterexample: a reachable matcher state in which
`has_partial_matches()` is true although the active set is empty (no
active pattern reports a partial match): pressing the trigger key of a
lone Immediate single-key pattern records its `press_time` and completes,
and `reset_all_patterns` resets only *active* patterns, leaving the
recorded `press_time` behind. -/
theorem has_partial_matches_counterexample :
    immediateSinglePressed.hasPartialMatches = true ∧
    (immediateSinglePressed.active_patterns.any fun i =>
      (getPattern immediateSinglePressed.patterns i).hasPartialMatch) = false := by
  exact ⟨rfl, rfl⟩

/-- C6 (amended): one configured pattern string that fails to parse is
dropped while the engine continues with the patterns of the remaining
entries; within a single semicolon-separated string, however, an invalid
sub-pattern makes `parse_multiple_patterns` fail as a whole, so the valid
sub-patterns of that same string are dropped with it. -/
theorem parse_error_entry_isolation (pre post : List (String × ShortcutAction))
    (s : String) (a : ShortcutAction) (buffer_ms : Nat) (e : ParseError)
    (h : parseMultiplePatterns s a = .error e) :
    parsePatternsInternal (pre ++ (s, a) :: post) buffer_ms
      = parsePatternsInternal (pre ++ post) buffer_ms := by
  unfold parsePatternsInternal
  rw [List.foldl_append, List.foldl_append, List.foldl_cons]
  simp [h]

/-- C6 counterexample: in the single config string `"ControlLeft;NotAKey"`
the sub-pattern `ControlLeft` parses on its own, yet
`parse_multiple_patterns` on the whole string returns an error, yielding no
patterns at all — the valid sub-pattern does not survive. -/
theorem parse_error_sub_pattern_counterexample :
    parseMultiplePatterns "ControlLeft;NotAKey" .stop
      = .error (.unknownKey (strChars "NotAKey")) ∧
    parsePattern "ControlLeft" .stop
      = .ok [.single (SingleKeyPattern.new .ControlLeft .stop)] := by
  exact ⟨rfl, rfl⟩

/-- Witness for `parse_error_entry_isolation`: the failing entry
`"ControlLeft;NotAKey"` is dropped and the engine continues with the `KeyA`
entry. -/
theorem parse_error_entry_isolation_witness :
    parsePatternsInternal
        ([("KeyA", ShortcutAction.start)] ++ ("ControlLeft;NotAKey", ShortcutAction.stop) :: [])
        50
      = parsePatternsInternal ([("KeyA", ShortcutAction.start)] ++ []) 50 :=
  parse_error_entry_isolation [("KeyA", .start)] [] "ControlLeft;NotAKey" .stop 50
    (.unknownKey (strChars "NotAKey")) rfl

theorem handleCommand_preserves_pausedNoStream (config : Config) (cmd : Command)
    (env : WorkerEnv) (state : InternalState) (shared : SharedState)
    (h : state.is_paused = true → state.stream = none) :
    (handleCommand config cmd env state shared).2.1.is_paused = true →
      (handleCommand config cmd env state shared).2.1.stream = none := by
  cases cmd <;>
    simp only [handleCommand] <;>
    (try cases env.stream_outcome) <;>
    (repeat' split) <;>
    (first
      | exact h
      | simp_all)

theorem runWorker_pausedNoStream (config : Config)
    (inputs : List (Command × WorkerEnv)) (st : InternalState × SharedState)
    (h : PausedNoStream st) : PausedNoStream (runWorker config inputs st) := by
  induction inputs generalizing st with
  | nil => exact h
  | cons p rest ih =>
    obtain ⟨state, shared⟩ := st
    obtain ⟨cmd, env⟩ := p
    have hpres := handleCommand_preserves_pausedNoStream config cmd env state shared h
    unfold runWorker
    rcases hh : handleCommand config cmd env state shared with ⟨ores, state2, shared2⟩
    rw [hh] at hpres
    cases ores with
    | none => exact hpres
    | some r => exact ih (state2, shared2) hpres

/-- C10: in every worker state reachable from the initial state by any
command sequence, `is_paused = true` implies the stream handle is `None`;
consequently a PauseRecording issued while already paused replies
`Error(NotRecording)` (the no-stream check fires first), and no reachable
state and command can produce `Error(AlreadyPaused)` (stream-construction
outcomes are never the state error `AlreadyPaused`). -/
theorem recorder_paused_implies_no_stream (config : Config) (ring : Option Unit)
    (inputs : List (Command × WorkerEnv)) :
    PausedNoStream (runWorker config inputs (initialWorkerState config ring)) ∧
    ((runWorker config inputs (initialWorkerState config ring)).1.is_paused = true →
      ∀ env : WorkerEnv,
        (handleCommand config .pauseRecording env
            (runWorker config inputs (initialWorkerState config ring)).1
            (runWorker config inputs (initialWorkerState config ring)).2).1
          = some (.error .notRecording)) ∧
    (∀ (cmd : Command) (env : WorkerEnv),
      env.stream_outcome ≠ .error .alreadyPaused →
        (handleCommand config cmd env
            (runWorker config inputs (initialWorkerState config ring)).1
            (runWorker config inputs (initialWorkerState config ring)).2).1
          ≠ some (.error .alreadyPaused)) := by
  have hinv : PausedNoStream (runWorker config inputs (initialWorkerState config ring)) :=
    runWorker_pausedNoStream config inputs _ (by intro h; rfl)
  refine ⟨hinv, ?_, ?_⟩
  · intro hp env
    have hstream := hinv hp
    simp only [handleCommand, hstream, Option.isNone_none, if_pos]
  · intro cmd env henv
    have hps := hinv
    unfold PausedNoStream at hps
    cases cmd <;>
      simp only [handleCommand] <;>
      (try cases houtc : env.stream_outcome) <;>
      (repeat' split) <;>
      simp_all

/-- Witness for `recorder_paused_implies_no_stream`: after Start then
Pause, the worker is paused, holds no stream, answers a second Pause with
`Error(NotRecording)`, and a Start with a clean stream outcome does not
produce `Error(AlreadyPaused)`. -/
theorem recorder_paused_witness :
    (runWorker Config.default
        [(.startRecording, ⟨.ok (), 0⟩), (.pauseRecording, ⟨.ok (), 5⟩)]
        (initialWorkerState Config.default none)).1.is_paused = true ∧
    (runWorker Config.default
        [(.startRecording, ⟨.ok (), 0⟩), (.pauseRecording, ⟨.ok (), 5⟩)]
        (initialWorkerState Config.default none)).1.stream = none ∧
    (handleCommand Config.default .pauseRecording ⟨.ok (), 6⟩
        (runWorker Config.default
          [(.startRecording, ⟨.ok (), 0⟩), (.pauseRecording, ⟨.ok (), 5⟩)]
          (initialWorkerState Config.default none)).1
        (runWorker Config.default
          [(.startRecording, ⟨.ok (), 0⟩), (.pauseRecording, ⟨.ok (), 5⟩)]
          (initialWorkerState Config.default none)).2).1
      = some (.error .notRecording) ∧
    (handleCommand Config.default .startRecording ⟨.ok (), 6⟩
        (runWorker Config.default
          [(.startRecording, ⟨.ok (), 0⟩), (.pauseRecording, ⟨.ok (), 5⟩)]
          (initialWorkerState Config.default none)).1
        (runWorker Config.default
          [(.startRecording, ⟨.ok (), 0⟩), (.pauseRecording, ⟨.ok (), 5⟩)]
          (initialWorkerState Config.default none)).2).1
      ≠ some (.error .alreadyPaused) := by
  have h := recorder_paused_implies_no_stream Config.default none
    [(.startRecording, ⟨.ok (), 0⟩), (.pauseRecording, ⟨.ok (), 5⟩)]
  exact ⟨by decide, h.1 (by decide), h.2.1 (by decide) ⟨.ok (), 6⟩,
    h.2.2 .startRecording ⟨.ok (), 6⟩ (fun hcontra => Except.noConfusion hcontra)⟩

/-- C4: StopRecording replies `Error(NotRecording)` iff there is no active
stream and the recorder is not paused; otherwise it replies
`Stopped(AudioData)` whose samples are the saved segments in order followed
by the bytes drained from the DynamicBuffer (empty if no stream), with
`channels = 1`, `sample_rate = 48000` and `duration_ms` the elapsed time
since `start_time`; afterwards the stream, start time, segments, buffer
contents and both flags are cleared. -/
theorem stop_recording_semantics (config : Config) (env : WorkerEnv)
    (state : InternalState) (shared : SharedState)
    (h48 : config.sample_rate = 48000) :
    ((handleCommand config .stopRecording env state shared).1
        = some (.error .notRecording)
      ↔ (state.stream = none ∧ state.is_paused = false)) ∧
    (¬ (state.stream = none ∧ state.is_paused = false) →
      (handleCommand config .stopRecording env state shared).1
        = some (.stopped
            { samples := state.segments.flatten ++
                (if state.stream.isSome then state.buffer.buffer else [])
              sample_rate := 48000
              channels := 1
              duration_ms :=
                match state.start_time with
                | some t => env.now - t
                | none => 0 }) ∧
      (handleCommand config .stopRecording env state shared).2.1.stream = none ∧
      (handleCommand config .stopRecording env state shared).2.1.start_time = none ∧
      (handleCommand config .stopRecording env state shared).2.1.segments = [] ∧
      (handleCommand config .stopRecording env state shared).2.1.is_paused = false ∧
      (handleCommand config .stopRecording env state shared).2.1.buffer.len = 0 ∧
      (handleCommand config .stopRecording env state shared).2.2
        = { is_recording := false, is_paused := false }) := by
  rcases hstream : state.stream with _ | stru <;> cases hpause : state.is_paused <;>
    simp_all [handleCommand, DynamicBuffer.readAll, DynamicBuffer.reset, DynamicBuffer.len]

/-- Witness for `stop_recording_semantics`: stopping with an active stream,
one saved segment `[5]`, buffered bytes `[1, 2]`, started at 10 ms and
stopped at 250 ms. -/
theorem stop_recording_witness :
    Config.default.sample_rate = 48000 ∧
    (handleCommand Config.default .stopRecording ⟨.ok (), 250⟩
        ⟨some (), ⟨[1, 2], 4, 4, 4, 4⟩, none, some 10, [[5]], false⟩ ⟨true, false⟩).1
      = some (.stopped
          { samples := ([[5]] : List (List Nat)).flatten ++
              (if (some () : Option Unit).isSome then ([1, 2] : List Nat) else [])
            sample_rate := 48000
            channels := 1
            duration_ms := match (some 10 : Option Nat) with | some t => 250 - t | none => 0 }) ∧
    (handleCommand Config.default .stopRecording ⟨.ok (), 250⟩
        ⟨some (), ⟨[1, 2], 4, 4, 4, 4⟩, none, some 10, [[5]], false⟩ ⟨true, false⟩).2.1.segments
      = [] ∧
    (handleCommand Config.default .stopRecording ⟨.ok (), 250⟩
        ⟨some (), ⟨[1, 2], 4, 4, 4, 4⟩, none, some 10, [[5]], false⟩ ⟨true, false⟩).2.2
      = { is_recording := false, is_paused := false } := by
  have h := stop_recording_semantics Config.default ⟨.ok (), 250⟩
    ⟨some (), ⟨[1, 2], 4, 4, 4, 4⟩, none, some 10, [[5]], false⟩ ⟨true, false⟩ rfl
  have h2 := h.2 (by simp)
  exact ⟨rfl, h2.1, h2.2.2.2.1, h2.2.2.2.2.2.2⟩

theorem getPattern_set_ne (ps : List Pattern) (i j : Nat) (p : Pattern) (hne : j ≠ i) :
    getPattern (ps.set i p) j = getPattern ps j := by
  unfold getPattern
  rw [List.getD_eq_getD_get?, List.getD_eq_getD_get?, List.get?_eq_getElem?,
    List.get?_eq_getElem?, List.getElem?_set_ne (fun h => hne h.symm)]

theorem getPattern_set_self (ps : List Pattern) (i : Nat) (p : Pattern)
    (h : i < ps.length) :
    getPattern (ps.set i p) i = p := by
  unfold getPattern
  rw [List.getD_eq_getElem _ _ (by simpa using h)]
  simp

theorem setStrategyAt_length (ps : List Pattern) (i : Nat) (strat : ConflictStrategy) :
    (setStrategyAt ps i strat).length = ps.length := by
  unfold setStrategyAt
  split <;> simp

theorem getPattern_setStrategyAt_ne (ps : List Pattern) (i : Nat)
    (strat : ConflictStrategy) (j : Nat) (hne : j ≠ i) :
    getPattern (setStrategyAt ps i strat) j = getPattern ps j := by
  unfold setStrategyAt
  split <;> first
    | rfl
    | exact getPattern_set_ne ps i j _ hne

theorem getPattern_setStrategyAt_single (ps : List Pattern) (i : Nat)
    (strat : ConflictStrategy) (s : SingleKeyPattern)
    (hi : i < ps.length) (hs : getPattern ps i = .single s) :
    getPattern (setStrategyAt ps i strat) i
      = .single { s with conflict_strategy := strat } := by
  unfold setStrategyAt
  rw [hs]
  exact getPattern_set_self ps i _ hi

theorem getPattern_setStrategyAt_not_single (ps : List Pattern) (i : Nat)
    (strat : ConflictStrategy)
    (hs : ∀ s : SingleKeyPattern, getPattern ps i ≠ .single s) :
    getPattern (setStrategyAt ps i strat) i = getPattern ps i := by
  unfold setStrategyAt
  cases hp : getPattern ps i with
  | single s => exact absurd hp (hs s)
  | combo c => exact hp
  | double d => exact hp

theorem foldl_setStrategy_length (strat : ConflictStrategy) (l : List Nat)
    (ps : List Pattern) :
    (l.foldl (fun acc i => setStrategyAt acc i strat) ps).length = ps.length := by
  induction l generalizing ps with
  | nil => rfl
  | cons i rest ih => rw [List.foldl_cons, ih, setStrategyAt_length]

theorem foldl_setStrategy_get (strat : ConflictStrategy) (l : List Nat) (ps : List Pattern)
    (hl : ∀ i ∈ l, i < ps.length) (j : Nat) :
    getPattern (l.foldl (fun acc i => setStrategyAt acc i strat) ps) j
      = if j ∈ l then
          match getPattern ps j with
          | .single s => .single { s with conflict_strategy := strat }
          | p => p
        else getPattern ps j := by
  induction l generalizing ps with
  | nil => simp
  | cons i rest ih =>
    rw [List.foldl_cons]
    have hi : i < ps.length := hl i (by simp)
    have hrest : ∀ x ∈ rest, x < (setStrategyAt ps i strat).length := by
      intro x hx
      rw [setStrategyAt_length]
      exact hl x (by simp [hx])
    rw [ih _ hrest]
    by_cases hji : j = i
    · subst hji
      cases hp : getPattern ps j with
      | single s =>
        rw [getPattern_setStrategyAt_single ps j strat s hi hp]
        by_cases hjr : j ∈ rest <;> simp [hjr, hp]
      | combo c =>
        rw [getPattern_setStrategyAt_not_single ps j strat (by simp [hp])]
        by_cases hjr : j ∈ rest <;> simp [hjr, hp]
      | double d =>
        rw [getPattern_setStrategyAt_not_single ps j strat (by simp [hp])]
        by_cases hjr : j ∈ rest <;> simp [hjr, hp]
    · rw [getPattern_setStrategyAt_ne ps i strat j hji]
      simp [List.mem_cons, hji]

theorem applyTypeBasedStrategies_length (buffer : Nat) (idxs : List Nat)
    (ps : List Pattern) :
    (applyTypeBasedStrategies buffer idxs ps).length = ps.length := by
  unfold applyTypeBasedStrategies
  exact foldl_setStrategy_length _ _ _

theorem applyTypeBasedStrategies_get (buffer : Nat) (idxs : List Nat) (ps : List Pattern)
    (hl : ∀ i ∈ idxs, i < ps.length) (j : Nat) :
    getPattern (applyTypeBasedStrategies buffer idxs ps) j
      = if j ∈ idxs then
          match getPattern ps j with
          | .single s => .single { s with conflict_strategy := groupStrategy buffer idxs ps }
          | p => p
        else getPattern ps j := by
  unfold applyTypeBasedStrategies
  rw [foldl_setStrategy_get _ _ _ (fun x hx => hl x (List.mem_filter.mp hx).1) j]
  by_cases hj : j ∈ idxs
  · cases hp : getPattern ps j with
    | single s => simp [List.mem_filter, hj, hp, Pattern.getType]
    | combo c => simp [List.mem_filter, hj, hp, Pattern.getType]
    | double d => simp [List.mem_filter, hj, hp, Pattern.getType]
  · have hnf : j ∉ idxs.filter fun i => (getPattern ps i).getType = .single := by
      simp [List.mem_filter, hj]
    simp [hnf, hj]

theorem applyTypeBasedStrategies_shape (buffer : Nat) (idxs : List Nat) (ps : List Pattern)
    (hl : ∀ i ∈ idxs, i < ps.length) (j : Nat) :
    (getPattern (applyTypeBasedStrategies buffer idxs ps) j).getType
        = (getPattern ps j).getType ∧
    (getPattern (applyTypeBasedStrategies buffer idxs ps) j).getTriggerKey
        = (getPattern ps j).getTriggerKey ∧
    (getPattern (applyTypeBasedStrategies buffer idxs ps) j).getTimeout
        = (getPattern ps j).getTimeout := by
  rw [applyTypeBasedStrategies_get buffer idxs ps hl j]
  by_cases hj : j ∈ idxs
  · cases hp : getPattern ps j <;>
      simp [hj, hp, Pattern.getType, Pattern.getTriggerKey, Pattern.getTimeout]
  · simp [hj]

theorem list_any_congr (l : List Nat) (f g : Nat → Bool)
    (h : ∀ a ∈ l, f a = g a) : l.any f = l.any g := by
  induction l with
  | nil => rfl
  | cons a t ih =>
    simp only [List.any_cons, h a (by simp), ih (fun x hx => h x (by simp [hx]))]

theorem groupStrategy_congr (buffer : Nat) (idxs : List Nat) (ps qs : List Pattern)
    (h : ∀ i ∈ idxs, (getPattern qs i).getType = (getPattern ps i).getType ∧
        (getPattern qs i).getTimeout = (getPattern ps i).getTimeout) :
    groupStrategy buffer idxs qs = groupStrategy buffer idxs ps := by
  have h1 : (idxs.any fun i => (getPattern qs i).getType = PatternType.combo)
      = (idxs.any fun i => (getPattern ps i).getType = PatternType.combo) :=
    list_any_congr _ _ _ (fun a ha => by rw [(h a ha).1])
  have h2 : (idxs.any fun i => (getPattern qs i).getType = PatternType.doubleTap)
      = (idxs.any fun i => (getPattern ps i).getType = PatternType.doubleTap) :=
    list_any_congr _ _ _ (fun a ha => by rw [(h a ha).1])
  have h3 : idxs.foldl
        (fun acc i =>
          if (getPattern qs i).getType = .doubleTap then
            max acc ((getPattern qs i).getTimeout.getD 0)
          else acc) 0
      = idxs.foldl
        (fun acc i =>
          if (getPattern ps i).getType = .doubleTap then
            max acc ((getPattern ps i).getTimeout.getD 0)
          else acc) 0 :=
    List.foldl_ext _ _ 0 (fun b a ha => by rw [(h a ha).1, (h a ha).2])
  unfold groupStrategy
  dsimp only
  rw [h1, h2, h3]

theorem analyze_fold_get (buffer : Nat) (ps : List Pattern) (ks : List Key)
    (hnd : ks.Nodup) (acc : List Pattern) (i : Nat) (hi : i < ps.length)
    (hlen : acc.length = ps.length)
    (hshape : ∀ j, (getPattern acc j).getType = (getPattern ps j).getType ∧
        (getPattern acc j).getTriggerKey = (getPattern ps j).getTriggerKey ∧
        (getPattern acc j).getTimeout = (getPattern ps j).getTimeout) :
    getPattern
        (ks.foldl (fun a k => applyTypeBasedStrategies buffer (groupIndices ps k) a) acc) i
      = if (getPattern ps i).getTriggerKey ∈ ks then
          match getPattern acc i with
          | .single s =>
            .single { s with
              conflict_strategy :=
                groupStrategy buffer (groupIndices ps ((getPattern ps i).getTriggerKey)) ps }
          | p => p
        else getPattern acc i := by
  induction ks generalizing acc with
  | nil => simp
  | cons k rest ih =>
    rw [List.foldl_cons]
    have hgl : ∀ x ∈ groupIndices ps k, x < acc.length := by
      intro x hx
      rw [hlen]
      unfold groupIndices at hx
      exact List.mem_range.mp (List.mem_filter.mp hx).1
    have hlen1 : (applyTypeBasedStrategies buffer (groupIndices ps k) acc).length
        = ps.length := by
      rw [applyTypeBasedStrategies_length, hlen]
    have hshape1 : ∀ j,
        (getPattern (applyTypeBasedStrategies buffer (groupIndices ps k) acc) j).getType
            = (getPattern ps j).getType ∧
        (getPattern (applyTypeBasedStrategies buffer (groupIndices ps k) acc) j).getTriggerKey
            = (getPattern ps j).getTriggerKey ∧
        (getPattern (applyTypeBasedStrategies buffer (groupIndices ps k) acc) j).getTimeout
            = (getPattern ps j).getTimeout := by
      intro j
      have hsh := applyTypeBasedStrategies_shape buffer (groupIndices ps k) acc hgl j
      exact ⟨hsh.1.trans (hshape j).1, hsh.2.1.trans (hshape j).2.1,
        hsh.2.2.trans (hshape j).2.2⟩
    rw [ih (List.nodup_cons.mp hnd).2 _ hlen1 hshape1]
    have hmem : i ∈ groupIndices ps k ↔ (getPattern ps i).getTriggerKey = k := by
      unfold groupIndices
      simp [List.mem_filter, List.mem_range, hi]
    have hgs : groupStrategy buffer (groupIndices ps k) acc
        = groupStrategy buffer (groupIndices ps k) ps :=
      groupStrategy_congr buffer _ ps acc (fun j _ => ⟨(hshape j).1, (hshape j).2.2⟩)
    by_cases htrig : (getPattern ps i).getTriggerKey = k
    · have hik : i ∈ groupIndices ps k := hmem.mpr htrig
      have hknr : (getPattern ps i).getTriggerKey ∉ rest := by
        rw [htrig]
        exact (List.nodup_cons.mp hnd).1
      rw [applyTypeBasedStrategies_get buffer _ acc hgl i]
      rw [if_pos hik, if_neg hknr, if_pos (by simp [htrig])]
      rw [htrig, ← hgs]
    · have hnik : i ∉ groupIndices ps k := fun hh => htrig (hmem.mp hh)
      rw [applyTypeBasedStrategies_get buffer _ acc hgl i]
      rw [if_neg hnik]
      by_cases hr : (getPattern ps i).getTriggerKey ∈ rest
      · rw [if_pos hr, if_pos (by simp [hr])]
      · rw [if_neg hr, if_neg (by simp [htrig, hr])]

theorem mem_groupIndices (ps : List Pattern) (k : Key) (j : Nat) :
    j ∈ groupIndices ps k ↔ j < ps.length ∧ (getPattern ps j).getTriggerKey = k := by
  unfold groupIndices
  simp [List.mem_filter, List.mem_range]

theorem groupIndices_nodup (ps : List Pattern) (k : Key) : (groupIndices ps k).Nodup :=
  (List.nodup_range _).filter _

theorem exists_ne_mem_of_one_lt_length {l : List Nat} (h1 : 1 < l.length)
    (hn : l.Nodup) (x : Nat) (hx : x ∈ l) : ∃ y ∈ l, y ≠ x := by
  match l, h1, hn, hx with
  | a :: b :: t, _, hn, hx =>
    by_cases hax : a = x
    · refine ⟨b, by simp, ?_⟩
      subst hax
      intro hbx
      exact (List.nodup_cons.mp hn).1 (hbx ▸ List.mem_cons_self b t)
    · exact ⟨a, by simp, hax⟩

theorem one_lt_length_of_two_mem {l : List Nat} (x y : Nat) (hx : x ∈ l) (hy : y ∈ l)
    (hxy : x ≠ y) : 1 < l.length := by
  match l with
  | [] => cases hx
  | [a] =>
    simp only [List.mem_singleton] at hx hy
    exact absurd (hx.trans hy.symm) hxy
  | a :: b :: t => simp only [List.length_cons]; omega

theorem triggerKey_mem_groupKeys (ps : List Pattern) (i : Nat) (hi : i < ps.length) :
    (getPattern ps i).getTriggerKey ∈ groupKeys ps := by
  unfold groupKeys
  rw [List.mem_dedup]
  refine List.mem_map.mpr ⟨getPattern ps i, ?_, rfl⟩
  unfold getPattern
  rw [List.getD_eq_getElem _ _ hi]
  exact List.getElem_mem hi

theorem shared_iff_one_lt_group (ps : List Pattern) (i : Nat) (hi : i < ps.length) :
    (∃ j, j < ps.length ∧ j ≠ i ∧
        (getPattern ps j).getTriggerKey = (getPattern ps i).getTriggerKey)
      ↔ 1 < (groupIndices ps ((getPattern ps i).getTriggerKey)).length := by
  constructor
  · rintro ⟨j, hj1, hj2, hj3⟩
    exact one_lt_length_of_two_mem j i ((mem_groupIndices ps _ j).mpr ⟨hj1, hj3⟩)
      ((mem_groupIndices ps _ i).mpr ⟨hi, rfl⟩) hj2
  · intro h
    obtain ⟨y, hy, hyne⟩ := exists_ne_mem_of_one_lt_length h (groupIndices_nodup _ _) i
      ((mem_groupIndices ps _ i).mpr ⟨hi, rfl⟩)
    have hmy := (mem_groupIndices ps _ y).mp hy
    exact ⟨y, hmy.1, hyne, hmy.2⟩

theorem groupStrategy_of_combo (buffer : Nat) (group : List Nat) (ps : List Pattern)
    (hc : ∃ j ∈ group, (getPattern ps j).getType = .combo) :
    groupStrategy buffer group ps = .fireOnRelease := by
  unfold groupStrategy
  have : (group.any fun j => (getPattern ps j).getType = PatternType.combo) = true := by
    rw [List.any_eq_true]
    obtain ⟨j, hj, ht⟩ := hc
    exact ⟨j, hj, by simp [ht]⟩
  simp [this]

theorem groupStrategy_of_double (buffer : Nat) (group : List Nat) (ps : List Pattern)
    (hnc : ¬ ∃ j ∈ group, (getPattern ps j).getType = .combo)
    (hd : ∃ j ∈ group, (getPattern ps j).getType = .doubleTap) :
    groupStrategy buffer group ps
      = .delayedFire
          (group.foldl
            (fun acc j =>
              if (getPattern ps j).getType = .doubleTap then
                max acc ((getPattern ps j).getTimeout.getD 0)
              else acc) 0 + buffer) := by
  unfold groupStrategy
  have h1 : (group.any fun j => (getPattern ps j).getType = PatternType.combo) = false := by
    rw [← Bool.not_eq_true, List.any_eq_true]
    simpa using hnc
  have h2 : (group.any fun j => (getPattern ps j).getType = PatternType.doubleTap) = true := by
    rw [List.any_eq_true]
    obtain ⟨j, hj, ht⟩ := hd
    exact ⟨j, hj, by simp [ht]⟩
  simp [h1, h2]

theorem groupStrategy_of_neither (buffer : Nat) (group : List Nat) (ps : List Pattern)
    (hnc : ¬ ∃ j ∈ group, (getPattern ps j).getType = .combo)
    (hnd : ¬ ∃ j ∈ group, (getPattern ps j).getType = .doubleTap) :
    groupStrategy buffer group ps = .immediate := by
  unfold groupStrategy
  have h1 : (group.any fun j => (getPattern ps j).getType = PatternType.combo) = false := by
    rw [← Bool.not_eq_true, List.any_eq_true]
    simpa using hnc
  have h2 : (group.any fun j => (getPattern ps j).getType = PatternType.doubleTap) = false := by
    rw [← Bool.not_eq_true, List.any_eq_true]
    simpa using hnd
  simp [h1, h2]

theorem foldl_apply_length (buffer : Nat) (ps : List Pattern) (ks : List Key)
    (acc : List Pattern) :
    (ks.foldl (fun a k => applyTypeBasedStrategies buffer (groupIndices ps k) a) acc).length
      = acc.length := by
  induction ks generalizing acc with
  | nil => rfl
  | cons k rest ih => rw [List.foldl_cons, ih, applyTypeBasedStrategies_length]

/-- C2: for every input pattern list, after `analyze_and_mark_conflicts`:
every single-key pattern whose trigger key is shared by at least one other
pattern has strategy `FireOnRelease` if a combo shares the key, else
`DelayedFire(max double-tap timeout over the key's group + buffer_ms)` if a
double-tap shares the key, else `Immediate`; a single-key pattern whose
trigger key is not shared is unmodified (in particular it keeps the
`Immediate` strategy the parser gave it), and non-single patterns are never
modified. -/
theorem conflict_resolver_rewrite (buffer_ms : Nat) (ps : List Pattern) (i : Nat)
    (hi : i < ps.length) :
    (analyzeAndMarkConflicts buffer_ms ps).length = ps.length ∧
    ((∀ s : SingleKeyPattern, getPattern ps i ≠ .single s) →
      getPattern (analyzeAndMarkConflicts buffer_ms ps) i = getPattern ps i) ∧
    (∀ s : SingleKeyPattern, getPattern ps i = .single s →
      ((¬ ∃ j, j < ps.length ∧ j ≠ i ∧
          (getPattern ps j).getTriggerKey = (getPattern ps i).getTriggerKey) →
        getPattern (analyzeAndMarkConflicts buffer_ms ps) i = .single s) ∧
      ((∃ j, j < ps.length ∧ j ≠ i ∧
          (getPattern ps j).getTriggerKey = (getPattern ps i).getTriggerKey) →
        ((∃ j, j < ps.length ∧
            (getPattern ps j).getTriggerKey = (getPattern ps i).getTriggerKey ∧
            (getPattern ps j).getType = .combo) →
          getPattern (analyzeAndMarkConflicts buffer_ms ps) i
            = .single { s with conflict_strategy := .fireOnRelease }) ∧
        ((¬ ∃ j, j < ps.length ∧
            (getPattern ps j).getTriggerKey = (getPattern ps i).getTriggerKey ∧
            (getPattern ps j).getType = .combo) →
          (∃ j, j < ps.length ∧
            (getPattern ps j).getTriggerKey = (getPattern ps i).getTriggerKey ∧
            (getPattern ps j).getType = .doubleTap) →
          getPattern (analyzeAndMarkConflicts buffer_ms ps) i
            = .single { s with
                conflict_strategy := .delayedFire
                  ((groupIndices ps ((getPattern ps i).getTriggerKey)).foldl
                    (fun acc j =>
                      if (getPattern ps j).getType = .doubleTap then
                        max acc ((getPattern ps j).getTimeout.getD 0)
                      else acc) 0 + buffer_ms) }) ∧
        ((¬ ∃ j, j < ps.length ∧
            (getPattern ps j).getTriggerKey = (getPattern ps i).getTriggerKey ∧
            (getPattern ps j).getType = .combo) →
          (¬ ∃ j, j < ps.length ∧
            (getPattern ps j).getTriggerKey = (getPattern ps i).getTriggerKey ∧
            (getPattern ps j).getType = .doubleTap) →
          getPattern (analyzeAndMarkConflicts buffer_ms ps) i
            = .single { s with conflict_strategy := .immediate }))) := by
  have hks_nodup : (((groupKeys ps).filter fun k => (groupIndices ps k).length > 1)).Nodup :=
    (List.nodup_dedup _).filter _
  have hr : getPattern (analyzeAndMarkConflicts buffer_ms ps) i
      = if (getPattern ps i).getTriggerKey ∈
            ((groupKeys ps).filter fun k => (groupIndices ps k).length > 1) then
          match getPattern ps i with
          | .single s =>
            .single { s with
              conflict_strategy :=
                groupStrategy buffer_ms
                  (groupIndices ps ((getPattern ps i).getTriggerKey)) ps }
          | p => p
        else getPattern ps i := by
    unfold analyzeAndMarkConflicts
    exact analyze_fold_get buffer_ms ps _ hks_nodup ps i hi rfl (fun j => ⟨rfl, rfl, rfl⟩)
  have hmemks : ((getPattern ps i).getTriggerKey ∈
        ((groupKeys ps).filter fun k => (groupIndices ps k).length > 1))
      ↔ 1 < (groupIndices ps ((getPattern ps i).getTriggerKey)).length := by
    rw [List.mem_filter]
    simp [triggerKey_mem_groupKeys ps i hi]
  have hconv_c : (∃ j ∈ groupIndices ps ((getPattern ps i).getTriggerKey),
        (getPattern ps j).getType = .combo)
      ↔ (∃ j, j < ps.length ∧
          (getPattern ps j).getTriggerKey = (getPattern ps i).getTriggerKey ∧
          (getPattern ps j).getType = .combo) := by
    constructor
    · rintro ⟨j, hj, ht⟩
      have hm := (mem_groupIndices ps _ j).mp hj
      exact ⟨j, hm.1, hm.2, ht⟩
    · rintro ⟨j, h1, h2, h3⟩
      exact ⟨j, (mem_groupIndices ps _ j).mpr ⟨h1, h2⟩, h3⟩
  have hconv_d : (∃ j ∈ groupIndices ps ((getPattern ps i).getTriggerKey),
        (getPattern ps j).getType = .doubleTap)
      ↔ (∃ j, j < ps.length ∧
          (getPattern ps j).getTriggerKey = (getPattern ps i).getTriggerKey ∧
          (getPattern ps j).getType = .doubleTap) := by
    constructor
    · rintro ⟨j, hj, ht⟩
      have hm := (mem_groupIndices ps _ j).mp hj
      exact ⟨j, hm.1, hm.2, ht⟩
    · rintro ⟨j, h1, h2, h3⟩
      exact ⟨j, (mem_groupIndices ps _ j).mpr ⟨h1, h2⟩, h3⟩
  refine ⟨?_, ?_, ?_⟩
  · unfold analyzeAndMarkConflicts
    exact foldl_apply_length _ _ _ _
  · intro hns
    rw [hr]
    by_cases hks : (getPattern ps i).getTriggerKey ∈
        ((groupKeys ps).filter fun k => (groupIndices ps k).length > 1)
    · rw [if_pos hks]
      cases hp : getPattern ps i with
      | single s => exact absurd hp (hns s)
      | combo c => rfl
      | double d => rfl
    · rw [if_neg hks]
  · intro s hs
    constructor
    · intro hnsh
      rw [hr, if_neg (fun hk =>
        hnsh ((shared_iff_one_lt_group ps i hi).mpr (hmemks.mp hk))), hs]
    · intro hsh
      have hks := hmemks.mpr ((shared_iff_one_lt_group ps i hi).mp hsh)
      have hri : getPattern (analyzeAndMarkConflicts buffer_ms ps) i
          = .single { s with
              conflict_strategy :=
                groupStrategy buffer_ms
                  (groupIndices ps ((getPattern ps i).getTriggerKey)) ps } := by
        rw [hr, if_pos hks, hs]
      refine ⟨?_, ?_, ?_⟩
      · intro hc
        rw [hri, groupStrategy_of_combo _ _ _ (hconv_c.mpr hc)]
      · intro hnc hd
        rw [hri, groupStrategy_of_double _ _ _ (fun hx => hnc (hconv_c.mp hx))
          (hconv_d.mpr hd)]
      · intro hnc hnd
        rw [hri, groupStrategy_of_neither _ _ _ (fun hx => hnc (hconv_c.mp hx))
          (fun hx => hnd (hconv_d.mp hx))]

/-- Witness for `conflict_resolver_rewrite`: a single and a double-tap on
`ControlLeft` (timeout 300, buffer 50): the single is rewritten to
`DelayedFire 350`. -/
theorem conflict_resolver_rewrite_witness :
    getPattern (analyzeAndMarkConflicts 50
        [.single (SingleKeyPattern.new .ControlLeft .stop),
         .double ⟨.ControlLeft, 300, .start, none⟩]) 0
      = .single ⟨.ControlLeft, .stop, .delayedFire 350, none⟩ := by
  have h := conflict_resolver_rewrite 50
    [.single (SingleKeyPattern.new .ControlLeft .stop),
     .double ⟨.ControlLeft, 300, .start, none⟩] 0 (by decide)
  have h2 := ((h.2.2 (SingleKeyPattern.new .ControlLeft .stop) (by decide)).2
      ⟨1, by decide, by decide, by decide⟩).2.1
    (by
      rintro ⟨j, hj, -, ht⟩
      have hj2 : j < 2 := by simpa using hj
      interval_cases j
      · exact absurd ht (by decide)
      · exact absurd ht (by decide))
    ⟨1, by decide, by decide, by decide⟩
  rw [h2]
  decide

theorem resolver_single_double (k : Key) (t buffer : Nat) (a1 a2 : ShortcutAction) :
    analyzeAndMarkConflicts buffer
        [.single (SingleKeyPattern.new k a1), .double ⟨k, t, a2, none⟩]
      = [.single ⟨k, a1, .delayedFire (t + buffer), none⟩, .double ⟨k, t, a2, none⟩] := by
  unfold analyzeAndMarkConflicts groupKeys groupIndices applyTypeBasedStrategies
    groupStrategy setStrategyAt SingleKeyPattern.new
  simp [Pattern.getTriggerKey, Pattern.getType, Pattern.getTimeout, getPattern,
    List.dedup_cons_of_mem, List.range_succ]

theorem press_one (config : Config) (k : Key) (t buffer : Nat)
    (a1 a2 : ShortcutAction) (t0 : Nat) (hpos : 0 < t + buffer) :
    MatcherEngine.processEventWithTime config (doubleTapConflictEngine k t buffer a1 a2)
        (.press k) t0
      = (none,
          { matcher := ⟨[.single ⟨k, a1, .delayedFire (t + buffer), some t0⟩,
                         .double ⟨k, t, a2, some t0⟩], [1], [0], 1⟩
            current_state := .idle
            buffer_ms := buffer
            pending_delayed := [⟨0, a1, t0 + (t + buffer)⟩]
            is_actively_listening := false
            last_activity := 0
            pattern_configs := none }) := by
  have hle : ¬ (t0 + (t + buffer) ≤ t0) := by omega
  have hrange : List.range 2 = [0, 1] := rfl
  unfold doubleTapConflictEngine
  rw [resolver_single_double k t buffer a1 a2]
  unfold MatcherEngine.processEventWithTime ShortcutMatcher.processEvent
    ShortcutMatcher.new ShortcutMatcher.cleanupExpiredPatterns ShortcutMatcher.processPress
    patternsForKey sortByTimeoutPriority MatcherEngine.applyMatcherResult
  simp [hrange, getPattern, Pattern.getTriggerKey, Pattern.getTimeout, timeoutLE, insertByTimeout,
    pressActiveLoop, pressNewLoop, Pattern.processKeyPress, SingleKeyPattern.processKeyPress,
    DoubleTapPattern.processKeyPress, Pattern.isExpired, DoubleTapPattern.isExpired,
    checkAndTriggerDelayed, hle]

theorem press_two (config : Config) (k : Key) (t buffer : Nat)
    (a1 a2 : ShortcutAction) (t0 d : Nat) (hd : d ≤ t) :
    MatcherEngine.processEventWithTime config
        ({ matcher := ⟨[.single ⟨k, a1, .delayedFire (t + buffer), some t0⟩,
                        .double ⟨k, t, a2, some t0⟩], [1], [0], 1⟩
           current_state := .idle
           buffer_ms := buffer
           pending_delayed := [⟨0, a1, t0 + (t + buffer)⟩]
           is_actively_listening := false
           last_activity := 0
           pattern_configs := none } : MatcherEngine)
        (.press k) (t0 + d)
      = (some a2,
         MatcherEngine.setState config
           { matcher := ⟨[.single ⟨k, a1, .delayedFire (t + buffer), some t0⟩,
                          .double ⟨k, t, a2, none⟩], [], [], 1⟩
             current_state := .idle
             buffer_ms := buffer
             pending_delayed := []
             is_actively_listening := false
             last_activity := 0
             pattern_configs := none }
           (determineNextState a2 .idle)) := by
  have hnexp : ¬ (d > t) := by omega
  unfold MatcherEngine.processEventWithTime ShortcutMatcher.processEvent
    ShortcutMatcher.cleanupExpiredPatterns ShortcutMatcher.processPress
    sortByTimeoutPriority MatcherEngine.applyMatcherResult
  simp [getPattern, Pattern.getTriggerKey, Pattern.getTimeout, timeoutLE, insertByTimeout,
    pressActiveLoop, Pattern.processKeyPress, DoubleTapPattern.processKeyPress,
    Pattern.isExpired, DoubleTapPattern.isExpired, ShortcutMatcher.resetAllPatterns,
    resetPatternAt, Pattern.reset, checkAndTriggerDelayed, Nat.add_sub_cancel_left,
    hnexp, hd]

theorem setState_pending_delayed (config : Config) (e : MatcherEngine)
    (st : ShortcutEngineState) :
    (e.setState config st).pending_delayed = e.pending_delayed := by
  unfold MatcherEngine.setState
  split <;> rfl

theorem pollDelayedAction_of_empty (config : Config) (e : MatcherEngine)
    (h : e.pending_delayed = []) (now : Nat) :
    (e.pollDelayedAction config now).1 = none := by
  unfold MatcherEngine.pollDelayedAction
  rw [h]
  rfl

/-- C1: for a matcher holding a single-key pattern and a double-tap pattern
(timeout `t`) on the same trigger key `k`, the single rewritten to
`DelayedFire` by the conflict resolver: pressing `k` at `t0` yields no
action, pressing `k` again at `t0 + d` with `d ≤ t` yields exactly the
double-tap's action, the delayed single-fire scheduled by the first press
has been cancelled (the pending-delayed list is empty), and polling delayed
actions at any later time returns nothing.  (`0 < t + buffer` rules out the
degenerate zero-delay schedule, which would fire during the first press.) -/
theorem double_tap_priority (config : Config) (k : Key) (t buffer : Nat)
    (a1 a2 : ShortcutAction) (t0 d : Nat) (hd : d ≤ t) (hpos : 0 < t + buffer) :
    ((doubleTapConflictEngine k t buffer a1 a2).processEventWithTime config (.press k) t0).1
        = none ∧
    ((((doubleTapConflictEngine k t buffer a1 a2).processEventWithTime config
        (.press k) t0).2).processEventWithTime config (.press k) (t0 + d)).1 = some a2 ∧
    ((((doubleTapConflictEngine k t buffer a1 a2).processEventWithTime config
        (.press k) t0).2).processEventWithTime config
        (.press k) (t0 + d)).2.pending_delayed = [] ∧
    ∀ t1 : Nat,
      (((((doubleTapConflictEngine k t buffer a1 a2).processEventWithTime config
          (.press k) t0).2).processEventWithTime config
          (.press k) (t0 + d)).2.pollDelayedAction config t1).1 = none := by
  have h1 := press_one config k t buffer a1 a2 t0 hpos
  have h2 := press_two config k t buffer a1 a2 t0 d hd
  have hpend : ((((doubleTapConflictEngine k t buffer a1 a2).processEventWithTime config
      (.press k) t0).2).processEventWithTime config
      (.press k) (t0 + d)).2.pending_delayed = [] := by
    rw [h1]
    dsimp only
    rw [h2]
    dsimp only
    rw [setState_pending_delayed]
  refine ⟨by rw [h1], ?_, hpend, ?_⟩
  · rw [h1]
    dsimp only
    rw [h2]
  · intro t1
    exact pollDelayedAction_of_empty config _ hpend t1

/-- Witness for `double_tap_priority`: `ControlLeft`, timeout 300, buffer
50, presses at 0 ms and 200 ms. -/
theorem double_tap_priority_witness :
    ((doubleTapConflictEngine .ControlLeft 300 50 .stop .start).processEventWithTime
        Config.default (.press .ControlLeft) 0).1 = none ∧
    ((((doubleTapConflictEngine .ControlLeft 300 50 .stop .start).processEventWithTime
        Config.default (.press .ControlLeft) 0).2).processEventWithTime Config.default
        (.press .ControlLeft) (0 + 200)).1 = some .start ∧
    ((((doubleTapConflictEngine .ControlLeft 300 50 .stop .start).processEventWithTime
        Config.default (.press .ControlLeft) 0).2).processEventWithTime Config.default
        (.press .ControlLeft) (0 + 200)).2.pending_delayed = [] ∧
    (((((doubleTapConflictEngine .ControlLeft 300 50 .stop .start).processEventWithTime
        Config.default (.press .ControlLeft) 0).2).processEventWithTime Config.default
        (.press .ControlLeft) (0 + 200)).2.pollDelayedAction Config.default 1000).1
      = none := by
  have h := double_tap_priority Config.default .ControlLeft 300 50 .stop .start 0 200
    (by decide) (by decide)
  exact ⟨h.1, h.2.1, h.2.2.1, h.2.2.2 1000⟩
